import Mathlib

/-!
Verification of the Mamlibrary writing assistant (Angular component `App` in
`src/app/app.ts` plus `supabase.service.ts`) against its natural-language
specification.

The development shallowly embeds the component's data model and the operations
the specification talks about:

* `BookSection` / `SectionStatus` mirror the `BookSection` interface
  (`status: 'pending' | 'generating' | 'done' | 'humanizing'`).
* the section-list operations `addNewSection`, `removeSection`,
  `updateSectionTitle`, the outline construction in `sendToWindow2`
  (both the custom-outline path and the model-outline path with its fallback),
  the sequential generation loops `autoWrite` / `autoHumanize`, the prompt
  assembly, the export functions `exportLatex` / `saveAll`, the
  Supabase serialization in `saveToSupabase` / `readDocument`, and the
  local-cache autosave effect together with the `ngOnInit` restore.

External generation calls (`ai.models.generateContentStream`) are modelled by
an oracle supplying, per call, the streamed chunks and whether the call
succeeded; the loops are deterministic functions of that oracle.  JavaScript
strings are modelled by Lean `String`, JavaScript integral numbers by `Nat`.
-/

namespace Mamlibrary

/-- Status of a section, from the `BookSection` interface:
`'pending' | 'generating' | 'done' | 'humanizing'`. -/
inductive SectionStatus where
| pending
| generating
| done
| humanizing
deriving DecidableEq, Repr

/-- The `BookSection` interface: `{ id: number; title: string; content: string;
status: ... }`.  Ids are the sequential integers the app assigns. -/
structure BookSection where
  id : Nat
  title : String
  content : String
  status : SectionStatus
deriving DecidableEq, Repr

/-- Functional update of the element at index `i` (out-of-range indices leave
the list unchanged).  This models the JavaScript pattern
`const newSecs = [...secs]; newSecs[i].f = v; return newSecs;` used throughout
the component: a fresh array whose `i`-th element has one field changed. -/
def modifyIdx (f : BookSection → BookSection) : Nat → List BookSection → List BookSection
| _, [] => []
| 0, a :: l => f a :: l
| n + 1, a :: l => a :: modifyIdx f n l

/-- A dummy section, used only as the out-of-range default of `secAt`. -/
def dummySection : BookSection := { id := 0, title := "", content := "", status := .pending }

/-- The section at index `j` (`dummySection` out of range); every claim that
uses it also carries the length facts that keep the index in range. -/
def secAt (l : List BookSection) (j : Nat) : BookSection := l.getD j dummySection

/-! ## Section-list operations (claim C3) -/

/-- The ids of a section list, in list order. -/
def sectionIds (l : List BookSection) : List Nat := l.map (·.id)

/-- `Math.max(...current.map(s => s.id))` (over a non-empty list this is the
maximum of the ids; the `0` seed is inert because ids are naturals). -/
def maxSectionId (l : List BookSection) : Nat :=
  l.foldl (fun m s => max m s.id) 0

/-- The id `addNewSection` assigns:
`current.length > 0 ? Math.max(...current.map(s => s.id)) + 1 : 1`. -/
def newSectionId (l : List BookSection) : Nat :=
  if l.length > 0 then maxSectionId l + 1 else 1

/-- `addNewSection()`: appends `{ id: newId, title: 'بەشی نوێ', content: '',
status: 'pending' }`. -/
def addNewSection (l : List BookSection) : List BookSection :=
  l ++ [{ id := newSectionId l, title := "بەشی نوێ", content := "", status := .pending }]

/-- `removeSection(id)`: `this.sections.update(s => s.filter(sec => sec.id !== id))`. -/
def removeSection (targetId : Nat) (l : List BookSection) : List BookSection :=
  l.filter (fun sec => sec.id ≠ targetId)

/-- `updateSectionTitle(id, event)`:
`s.map(sec => sec.id === id ? { ...sec, title: newTitle } : sec)`. -/
def updateSectionTitle (targetId : Nat) (newTitle : String) (l : List BookSection) :
    List BookSection :=
  l.map (fun sec => if sec.id = targetId then { sec with title := newTitle } else sec)

/-- JavaScript `String.prototype.trim`, on the character list (whitespace per
`Char.isWhitespace`: space, tab, CR, LF — the characters relevant here). -/
def trimChars (cs : List Char) : List Char :=
  ((cs.dropWhile Char.isWhitespace).reverse.dropWhile Char.isWhitespace).reverse

/-- `s.trim()` as used by the component. -/
def jsTrim (s : String) : String := String.mk (trimChars s.data)

/-- `split(sep)` on a character list: splitting on every occurrence of `sep`;
the empty input yields one empty field, exactly as in JavaScript. -/
def splitOnChar (sep : Char) : List Char → List (List Char)
| [] => [[]]
| c :: rest =>
  let r := splitOnChar sep rest
  if c = sep then [] :: r
  else
    match r with
    | h :: t => (c :: h) :: t
    | [] => [[c]]

/-- JavaScript `s.split('\n')`. -/
def jsSplitNewline (s : String) : List String := (splitOnChar '\n' s.data).map String.mk

/-- The custom-outline path of `sendToWindow2`: split the custom outline on
newlines, trim, drop blank lines, and number the sections from 1. -/
def customOutlineSections (customOutline : String) : List BookSection :=
  let lines := ((jsSplitNewline customOutline).map jsTrim).filter (fun l => 0 < l.length)
  lines.enum.map (fun p => { id := p.1 + 1, title := p.2, content := "", status := .pending })

/-- `line.replace(/^\d+[.-]/, '')`: if the line starts with one or more digits
followed by `.` or `-`, drop that prefix (the regex can only match with the
full digit run, since neither `.` nor `-` is a digit). -/
def stripOutlineNumber (line : String) : String :=
  let cs := line.data
  let ds := cs.takeWhile (·.isDigit)
  if ds.isEmpty then line
  else
    match cs.drop ds.length with
    | c :: r => if c = '.' ∨ c = '-' then String.mk r else line
    | [] => line

/-- The model-outline path of `sendToWindow2`: split the returned outline text
on newlines, drop blank lines, strip leading numbering and trim to get titles;
if no sections result, fall back to `Math.max(3, Math.ceil(pages/5))`
placeholder sections `بەشی i` numbered from 1. -/
def outlineSections (outlineText : String) (pages : Nat) : List BookSection :=
  let lines := (jsSplitNewline outlineText).filter (fun l => 0 < (jsTrim l).length)
  let newSections := lines.enum.map
    (fun p => { id := p.1 + 1, title := jsTrim (stripOutlineNumber p.2), content := "",
                status := SectionStatus.pending })
  if newSections.length = 0 then
    (List.range (max 3 ((pages + 4) / 5))).map
      (fun i => { id := i + 1, title := "بەشی " ++ toString (i + 1), content := "",
                  status := SectionStatus.pending })
  else newSections

/-- Section lists reachable within one editing session: the empty list, the
lists created by `sendToWindow2` (either outline path), and anything obtained
from a reachable list by `addNewSection`, `removeSection`,
`updateSectionTitle`, or an in-place update of one element that keeps its id
(the status/content updates performed by the generation loops). -/
inductive ReachableSections : List BookSection → Prop where
| empty : ReachableSections []
| customOutline (customOutline : String) :
    ReachableSections (customOutlineSections customOutline)
| outline (outlineText : String) (pages : Nat) :
    ReachableSections (outlineSections outlineText pages)
| add {l} : ReachableSections l → ReachableSections (addNewSection l)
| remove {l} (targetId : Nat) : ReachableSections l →
    ReachableSections (removeSection targetId l)
| retitle {l} (targetId : Nat) (newTitle : String) : ReachableSections l →
    ReachableSections (updateSectionTitle targetId newTitle l)
| modify {l} (f : BookSection → BookSection) (i : Nat) :
    (∀ s, (f s).id = s.id) → ReachableSections l →
    ReachableSections (modifyIdx f i l)

/-- The id of the first section (`newSections[0].id`), which
`sendToWindow2` stores into `activeSectionId`. -/
def firstActiveId (l : List BookSection) : Option Nat := l.head?.map (·.id)

/-! ## The sequential generation loops (`autoWrite`, `autoHumanize`)

An external generation call is modelled by an oracle mapping the call's
position in the run and the prompt it receives to a `GenOutcome`: the list of
streamed text chunks delivered before the call either finished (`ok = true`)
or threw (`ok = false`).  The loops accumulate the chunks exactly as the
`for await` bodies do — after each chunk the section's `content` holds the
concatenation so far, so the final content is the concatenation of all
delivered chunks, and a call that throws before its first chunk leaves the
content untouched.  Each loop also returns the list of indices for which a
generation call was started, in order. -/

/-- Result of one external generation call. -/
structure GenOutcome where
  chunks : List String
  ok : Bool

/-- Effect of the `for await (const chunk of response)` body on the section
list: after the last delivered chunk, section `i`'s content is the
concatenation of all chunks; with no chunks the list is untouched. -/
def applyChunks (i : Nat) (chunks : List String) (l : List BookSection) : List BookSection :=
  if chunks.isEmpty then l
  else modifyIdx (fun s => { s with content := String.join chunks }) i l

/-- One pass of the `autoWrite` loop from index `i`
(`for (let i = 0; i < this.sections().length; i++) { ... }`), with `fuel`
(instantiated to the list length, which every iteration preserves) making the
recursion structural.  `mkPrompt` builds the per-section prompt from the
section's title and the `previousContext` accumulator; on success the status
becomes `done` and the previous context becomes the last 500 characters of the
generated text; on failure the status reverts to `pending` and the loop
breaks. -/
def autoWriteGo (oracle : Nat → String → GenOutcome) (mkPrompt : String → String → String) :
    Nat → Nat → String → List BookSection → List BookSection × List Nat
| 0, _, _, secs => (secs, [])
| fuel + 1, i, prevCtx, secs =>
  if h : i < secs.length then
    let sec := secs.get ⟨i, h⟩
    let secs1 := modifyIdx (fun s => { s with status := .generating }) i secs
    let out := oracle i (mkPrompt sec.title prevCtx)
    let secs2 := applyChunks i out.chunks secs1
    if out.ok then
      let secs3 := modifyIdx (fun s => { s with status := .done }) i secs2
      let r := autoWriteGo oracle mkPrompt fuel (i + 1) ((String.join out.chunks).takeRight 500) secs3
      (r.1, i :: r.2)
    else
      (modifyIdx (fun s => { s with status := .pending }) i secs2, [i])
  else (secs, [])

/-- The section-list effect of `autoWrite()` (starting from a state where no
generation is in flight): the loop above from index 0 with empty previous
context. -/
def autoWriteRun (oracle : Nat → String → GenOutcome) (mkPrompt : String → String → String)
    (secs : List BookSection) : List BookSection × List Nat :=
  autoWriteGo oracle mkPrompt secs.length 0 "" secs

/-- The `autoHumanize` loop from index `i`: sections with empty content are
skipped (`if (!section.content) continue;`) with no call made; otherwise the
status becomes `humanizing`, the call's chunks replace the content, and on
success the status becomes `done`; on failure the loop breaks (the status is
left as `humanizing` — the catch only sets the error message). -/
def autoHumanizeGo (oracle : Nat → String → GenOutcome) (mkPrompt : String → String) :
    Nat → Nat → List BookSection → List BookSection × List Nat
| 0, _, secs => (secs, [])
| fuel + 1, i, secs =>
  if h : i < secs.length then
    let sec := secs.get ⟨i, h⟩
    if sec.content = "" then autoHumanizeGo oracle mkPrompt fuel (i + 1) secs
    else
      let secs1 := modifyIdx (fun s => { s with status := .humanizing }) i secs
      let out := oracle i (mkPrompt sec.content)
      let secs2 := applyChunks i out.chunks secs1
      if out.ok then
        let r := autoHumanizeGo oracle mkPrompt fuel (i + 1)
          (modifyIdx (fun s => { s with status := .done }) i secs2)
        (r.1, i :: r.2)
      else (secs2, [i])
  else (secs, [])

/-- The section-list effect of `autoHumanize()` (starting from a state where no
generation is in flight). -/
def autoHumanizeRun (oracle : Nat → String → GenOutcome) (mkPrompt : String → String)
    (secs : List BookSection) : List BookSection × List Nat :=
  autoHumanizeGo oracle mkPrompt secs.length 0 secs

/-! ## Prompt assembly (claims C5, C6)

The `autoWrite` per-section prompt (and the `sendToWindow2` outline prompt)
are JavaScript template literals: an alternating sequence of fixed text and
interpolations, most of which are conditional fragments
`${form.X ? 'fragment' : ''}` keyed on one boolean form control.  The
embedding represents a template literal as a `List Piece` (one entry per
fixed chunk or interpolation, in source order) and renders it with
`String.join` — exactly the concatenation the template literal denotes.
`OptFlag` enumerates the boolean form controls that gate a fragment of the
`autoWrite` prompt; the remaining form controls appear as plain fields of
`Form`.  The numeric `temperature` control is represented by the decimal
string it renders to inside the template (its numeric value is never used by
any claim). -/

/-- The boolean form controls that gate a conditional fragment of the
`autoWrite` prompt, in source order.  (`mcrEconomicTrends` stands for the
source's macro-economic-trends control, renamed here.) -/
inductive OptFlag where
| superRole
| dialectic
| includeReferences
| dataFocus
| doiLinking
| counterArgument
| theoreticalFramework
| globalPerspective
| historicalContext
| ethicalConsiderations
| futureImplications
| harvardClassicTone
| quantitativeAnalysis
| qualitativeAnalysis
| mixedMethods
| longitudinalAnalysis
| crossSectional
| phenomenology
| groundedTheory
| deductiveReasoning
| inductiveReasoning
| statisticalSignificance
| confidenceIntervals
| effectSize
| triangulation
| biasDetection
| rhetoricalPrecision
| semanticDensity
| syntacticComplexity
| academicHedging
| signposting
| footnoteDensity
| glossaryCreation
| appendixStructuring
| etymology
| philology
| sociolinguistics
| psycholinguistics
| discourseAnalysis
| utilitarianism
| deontology
| existentialism
| stoicism
| postModernism
| bigData
| predictiveModeling
| networkAnalysis
| geospatialAnalysis
| sentimentAnalysis
| marxism
| feminism
| postColonialism
| structuralism
| deconstruction
| reproducibilityCheck
| falsifiability
| controlVariables
| doubleBlindProtocol
| peerDebriefing
| gameTheory
| behavioralEconomics
| mcrEconomicTrends
| costBenefitAnalysis
| supplyChainAnalysis
| cognitiveBehavioral
| psychoanalysis
| humanisticPsychology
| socialPsychology
| neuropsychology
| internationalLaw
| humanRights
| intellectualProperty
| bioethics
| corporateGovernance
deriving DecidableEq, Repr, Fintype

/-- The form controls read by the two prompts and the export/persistence
functions (`this.advancedForm.value`); `typ` is the source's `type` control
and `flags` collects the boolean fragment controls of `OptFlag`. -/
structure Form where
  title : String
  topic : String
  typ : String
  level : String
  pages : Nat
  temperature : String
  citationStyle : String
  referenceType : String
  customOutline : String
  customSources : String
  useCustomOutline : Bool
  useCustomSources : Bool
  flags : OptFlag → Bool

/-- One interpolated value (or fixed chunk) of a template literal. -/
inductive Atom where
| lit (s : String)
| title
| topic
| typ
| level
| temperature
| citationStyle
| referenceType
| pages
| sectionTitle
| prevCtx
deriving DecidableEq, Repr

/-- One entry of a template literal: a fixed chunk or plain interpolation
(`atom`), a fragment gated on one boolean control (`flagged`), the
previous-context block gated on `previousContext` being non-empty
(`prevCtxBlock`), or the `${sourcesInstruction}` interpolation (`sources`). -/
inductive Piece where
| atom (a : Atom)
| flagged (o : OptFlag) (frags : List Atom)
| prevCtxBlock (frags : List Atom)
| sources
deriving DecidableEq, Repr

def renderAtom (f : Form) (sectionTitle prevCtx : String) : Atom → String
| .lit s => s
| .title => f.title
| .topic => f.topic
| .typ => f.typ
| .level => f.level
| .temperature => f.temperature
| .citationStyle => f.citationStyle
| .referenceType => f.referenceType
| .pages => toString f.pages
| .sectionTitle => sectionTitle
| .prevCtx => prevCtx

def renderAtoms (f : Form) (sectionTitle prevCtx : String) (atoms : List Atom) : String :=
  String.join (atoms.map (renderAtom f sectionTitle prevCtx))

/-- The fixed text around `${form.customSources}` in `sourcesInstruction`
(the source template uses JavaScript escapes for the newlines). -/
def sourcesInstructionPrefix : String := "\n\nڕێنمایی زۆر گرنگ (CRITICAL): تۆ دەبێت تەنها و تەنها ئەم سەرچاوانەی خوارەوە بەکاربهێنیت بۆ وەرگرتنی زانیاری. بە هیچ شێوەیەک زانیاری لە دەرەوەی ئەم سەرچاوانە مەهێنە. ئەگەر زانیارییەکە لەم سەرچاوانەدا نەبوو، بڵێ کە بەردەست نییە.\nسەرچاوەکان:\n"

/-- The newline terminating `sourcesInstruction`. -/
def sourcesInstructionSuffix : String := "\n"

/-- `sourcesInstruction` from `autoWrite` (lines 511-513): present exactly when
`form.useCustomSources && form.customSources?.trim()` is truthy. -/
def sourcesInstruction (f : Form) : String :=
  if f.useCustomSources = true ∧ jsTrim f.customSources ≠ "" then
    sourcesInstructionPrefix ++ f.customSources ++ sourcesInstructionSuffix
  else ""

def renderPiece (f : Form) (sectionTitle prevCtx : String) : Piece → String
| .atom a => renderAtom f sectionTitle prevCtx a
| .flagged o frags => if f.flags o = true then renderAtoms f sectionTitle prevCtx frags else ""
| .prevCtxBlock frags => if prevCtx ≠ "" then renderAtoms f sectionTitle prevCtx frags else ""
| .sources => sourcesInstruction f

/-- The boolean control gating a piece, if any. -/
def pieceFlag : Piece → Option OptFlag
| .flagged o _ => some o
| _ => none

/-- `form.X` updated at one boolean fragment control (all other controls and
fields unchanged). -/
def setFlag (f : Form) (o : OptFlag) (b : Bool) : Form :=
  { f with flags := fun o2 => if o2 = o then b else f.flags o2 }


/-- The `autoWrite` per-section prompt template (source lines 528-636), one
entry per fixed chunk or interpolation, in source order. -/
def autoWriteTemplate : List Piece := [
Piece.atom (Atom.lit "\n      تۆ پڕۆفیسۆرێکی باڵا و سەرنووسەری چاپخانەی زانکۆی هارڤارد (Harvard University Press)یت.\n      تۆ خەریکی نووسینی ئەم بەرهەمەیت بەپێی ستانداردە توندەکانی هارڤارد:\n      ناونیشانی گشتی: "),
Piece.atom Atom.title,
Piece.atom (Atom.lit "\n      بابەت: "),
Piece.atom Atom.topic,
Piece.atom (Atom.lit "\n      جۆر: "),
Piece.atom Atom.typ,
Piece.atom (Atom.lit "\n      ئاست: "),
Piece.atom Atom.level,
Piece.atom (Atom.lit "\n      پلەی گەرمی (داهێنان): "),
Piece.atom Atom.temperature,
Piece.atom (Atom.lit "\n      \n      ڕێنماییە زۆر توندەکان بۆ سڕینەوەی مۆرکی ئامێر (ZERO AI FOOTPRINT) - ئەگەر ئەمە جێبەجێ نەکەیت دەقەکە ڕەتدەکرێتەوە:\n      ١. بە هیچ شێوەیەک نابێت هەست بکرێت کە زیرەکی دەستکرد ئەمەی نووسیوە. دەبێت سەدا سەد مرۆڤانە و لە ئاستی پڕۆفیسۆرێکی دێرینی هارڤارد بێت.\n      ٢. قەدەغەکردنی وشە سواوەکانی AI: هەرگیز ئەم دەستەواژانە بەکارمەهێنە: (لە کۆتاییدا، گرنگە بزانین، جێگای سەرنجە، بە کورتی، دەتوانین بڵێین، لەم ڕوانگەیەوە، پێویستە ئاماژە بەوە بکەین، بە دڵنیاییەوە، بێگومان).\n      ٣. شێوازی داڕشتن: ڕستەکانت با درێژی و کورتییان جیاواز بێت بۆ ئەوەی ڕیتمێکی سروشتی مرۆڤانەی هەبێت. خۆت بپارێزە لە ڕیزبەندییە یەکسانە بێزارکەرەکان (بۆ نموونە هەمیشە ٣ خاڵ یان ٣ پەرەگراف).\n      ٤. تۆنی نووسین: زۆر وشک، زانستی، بێلایەن، و بێ سۆز. هیچ وشەیەکی موبالەغە (وەک: زۆر گرنگە، سەرسوڕهێنەرە، بێوێنەیە) بەکارمەهێنە.\n      ٥. چڕیی واتایی: لەبری ئەوەی قسە درێژ بکەیتەوە، زانیارییەکان زۆر بە چڕی و بەکارهێنای زاراوەی قورسی ئەکادیمی دابڕێژە.\n      \n      ڕێساکانی هارڤارد کە دەبێت پەیڕەویان بکەیت:\n      "),
Piece.flagged OptFlag.superRole [Atom.lit "٠. (زۆر گرنگ): تۆ لە یەک کاتدا نووسەرێکی بلیمەت، ڕەخنەگرێکی زۆر توند، و پێداچوونەوەکارێکی وردبینی. دەبێت ئەم دەقە بە شێوەیەک بنووسیت کە پێشتر نووسرابێت، ڕەخنەی توندی لێگیرابێت، و بە تەواوی پاڵفتە کرابێت و هیچ کەلێنێکی تێدا نەمابێت."],
Piece.atom (Atom.lit "\n      ١. زمانی نووسین دەبێت زۆر فەرمی، ئەکادیمی، و بێلایەن بێت.\n      ٢. دوورکەوتنەوە لە وشەی سۆزداری و دەربڕینی کەسی.\n      ٣. هەموو ئیدیعایەک دەبێت بە بەڵگە و لۆژیک بسەلمێنرێت.\n      \n      "),
Piece.flagged OptFlag.dialectic [Atom.lit "٤. تکایە شێوازی (تێز، دژەتێز، سێنتێز) بەکاربهێنە لە شیکارییەکانتدا."],
Piece.atom (Atom.lit "\n      "),
Piece.flagged OptFlag.includeReferences [Atom.lit "٥. پێویستە سەرچاوەکان بەکاربهێنیت بە شێوازی ", Atom.citationStyle, Atom.lit "."],
Piece.atom (Atom.lit "\n      "),
Piece.flagged OptFlag.includeReferences [Atom.lit "٦. تەنها پشت بەم جۆرە سەرچاوانە ببەستە: ", Atom.referenceType, Atom.lit "."],
Piece.atom (Atom.lit "\n      "),
Piece.flagged OptFlag.dataFocus [Atom.lit "٧. تکایە پشت بە ئامار و داتای زانستی و ڕاستەقینە ببەستە."],
Piece.atom (Atom.lit "\n      "),
Piece.flagged OptFlag.doiLinking [Atom.lit "٨. بۆ هەر سەرچاوەیەک کە بەکاریدەهێنیت، تکایە لینکی DOI (Digital Object Identifier) یان URL ی فەرمی دابنێ ئەگەر بەردەست بوو."],
Piece.atom (Atom.lit "\n      \n      تایبەتمەندییە VIP و پێشکەوتووەکان کە دەبێت ڕەچاویان بکەیت:\n      "),
Piece.flagged OptFlag.counterArgument [Atom.lit "- بۆ هەر ئارگیومێنتێکی سەرەکی، دژە-ئارگیومێنتێکی (Counter-argument) بەهێز بهێنەوە و پاشان بە لۆژیکێکی پۆڵاین پووچەڵی بکەرەوە."],
Piece.atom (Atom.lit "\n      "),
Piece.flagged OptFlag.theoreticalFramework [Atom.lit "- بابەتەکە ببەستەوە بە چوارچێوەیەکی تیۆری (Theoretical Framework) ناسراو و قووڵ لەو بوارەدا."],
Piece.atom (Atom.lit "\n      "),
Piece.flagged OptFlag.globalPerspective [Atom.lit "- کێشەکە لە ڕوانگەیەکی جیهانی و نێودەوڵەتییەوە (Global Perspective) شی بکەرەوە، نەک تەنها ناوخۆیی."],
Piece.atom (Atom.lit "\n      "),
Piece.flagged OptFlag.historicalContext [Atom.lit "- پێشینە و پاشخانی مێژوویی (Historical Context) بابەتەکە بە قووڵی ڕوون بکەرەوە بۆ تێگەیشتنی ڕەگ و ڕیشەی کێشەکە."],
Piece.atom (Atom.lit "\n      "),
Piece.flagged OptFlag.ethicalConsiderations [Atom.lit "- لایەنە ئاکاری و ئەخلاقییەکانی (Ethical Considerations) پەیوەست بەم بابەتە بەوردی تاوتوێ بکە."],
Piece.atom (Atom.lit "\n      "),
Piece.flagged OptFlag.futureImplications [Atom.lit "- دەرئەنجامەکان و پێشبینییەکان بۆ داهاتوو (Future Implications) بە پشتبەستن بە داتای ئێستا بخەڕوو."],
Piece.atom (Atom.lit "\n      "),
Piece.flagged OptFlag.harvardClassicTone [Atom.lit "- تۆنی نووسینەکەت با کلاسیکی و زۆر قورسی هارڤارد بێت، بەکارهێنانی وشەسازی ئاڵۆز، فەلسەفی، و ڕستەی درێژی ئەکادیمی."],
Piece.atom (Atom.lit "\n      "),
Piece.flagged OptFlag.quantitativeAnalysis [Atom.lit "- شیکارییەکانت بە شێوازی چەندایەتی (Quantitative) و پشت بەستوو بە داتای ژمارەیی و ئاماری بیرکاری بکە."],
Piece.atom (Atom.lit "\n      "),
Piece.flagged OptFlag.qualitativeAnalysis [Atom.lit "- شیکارییەکانت بە شێوازی چۆنایەتی (Qualitative) و قووڵبوونەوە لە ماناکان، هۆکارەکان، و پاڵنەرەکان بکە."],
Piece.atom (Atom.lit "\n      \n      تایبەتمەندییە نوێیەکان (Mega Expansion):\n      "),
Piece.flagged OptFlag.mixedMethods [Atom.lit "- بەکارهێنانی ڕێبازی تێکەڵ (Mixed Methods) بۆ شیکردنەوەی داتا."],
Piece.atom (Atom.lit "\n      "),
Piece.flagged OptFlag.longitudinalAnalysis [Atom.lit "- ئەنجامدانی شیکاری درێژخایەن (Longitudinal Analysis) بۆ دەرخستنی گۆڕانکارییەکان بەپێی کات."],
Piece.atom (Atom.lit "\n      "),
Piece.flagged OptFlag.crossSectional [Atom.lit "- شیکاری بەراوردکاری (Cross-Sectional) لە نێوان گرووپە جیاوازەکاندا."],
Piece.atom (Atom.lit "\n      "),
Piece.flagged OptFlag.phenomenology [Atom.lit "- بەکارهێنانی ڕێبازی دیاردەناسی (Phenomenology) بۆ تێگەیشتن لە ئەزموونی زیندوو."],
Piece.atom (Atom.lit "\n      "),
Piece.flagged OptFlag.groundedTheory [Atom.lit "- بەکارهێنانی تیۆری بنچینەیی (Grounded Theory) بۆ دەرھێنانی تیۆری لە داتاکانەوە."],
Piece.atom (Atom.lit "\n      "),
Piece.flagged OptFlag.deductiveReasoning [Atom.lit "- بەکارهێنانی لۆژیکی دابەزین (Deductive Reasoning) لە گشتییەوە بۆ تایبەت."],
Piece.atom (Atom.lit "\n      "),
Piece.flagged OptFlag.inductiveReasoning [Atom.lit "- بەکارهێنانی لۆژیکی هەڵکشان (Inductive Reasoning) لە تایبەتەوە بۆ گشتی."],
Piece.atom (Atom.lit "\n      "),
Piece.flagged OptFlag.statisticalSignificance [Atom.lit "- جەختکردنەوە لەسەر واتای ئاماری (Statistical Significance) و بەهای P-value."],
Piece.atom (Atom.lit "\n      "),
Piece.flagged OptFlag.confidenceIntervals [Atom.lit "- دیاریکردنی مەودای متمانە (Confidence Intervals) بۆ هەموو خەمڵاندنەکان."],
Piece.atom (Atom.lit "\n      "),
Piece.flagged OptFlag.effectSize [Atom.lit "- ڕاپۆرتکردنی قەبارەی کاریگەری (Effect Size) بۆ نیشاندانی هێزی پەیوەندییەکان."],
Piece.atom (Atom.lit "\n      "),
Piece.flagged OptFlag.triangulation [Atom.lit "- بەکارهێنانی سێگۆشەکردن (Triangulation) بۆ پشتڕاستکردنەوەی داتا لە چەند سەرچاوەیەکەوە."],
Piece.atom (Atom.lit "\n      "),
Piece.flagged OptFlag.biasDetection [Atom.lit "- دەستنیشانکردن و کەمکردنەوەی لایەنگیری (Bias Detection & Mitigation)."],
Piece.atom (Atom.lit "\n      "),
Piece.flagged OptFlag.rhetoricalPrecision [Atom.lit "- بەکارهێنانی وردبینی ڕەوانبێژی (Rhetorical Precision) لە هەڵبژاردنی وشەکاندا."],
Piece.atom (Atom.lit "\n      "),
Piece.flagged OptFlag.semanticDensity [Atom.lit "- چڕیی واتایی (Semantic Density) بەرز بێت، واتە زانیاری زۆر لە وشەی کەمدا."],
Piece.atom (Atom.lit "\n      "),
Piece.flagged OptFlag.syntacticComplexity [Atom.lit "- ئاڵۆزی ڕستەسازی (Syntactic Complexity) بۆ نیشاندانی پەیوەندییە ئاڵۆزەکان."],
Piece.atom (Atom.lit "\n      "),
Piece.flagged OptFlag.academicHedging [Atom.lit "- بەکارهێنانی وریایی ئەکادیمی (Hedging) بۆ دوورکەوتنەوە لە گشتاندنی ناڕاست."],
Piece.atom (Atom.lit "\n      "),
Piece.flagged OptFlag.signposting [Atom.lit "- بەکارهێنانی نیشانەدانان (Signposting) بۆ ڕێنماییکردنی خوێنەر لەناو دەقەکەدا."],
Piece.atom (Atom.lit "\n      "),
Piece.flagged OptFlag.footnoteDensity [Atom.lit "- بەکارهێنانی پەراوێزی زۆر (High Footnote Density) بۆ ڕوونکردنەوەی زیادە."],
Piece.atom (Atom.lit "\n      "),
Piece.flagged OptFlag.glossaryCreation [Atom.lit "- ئامادەکردنی فەرهەنگۆک (Glossary) بۆ زاراوە تەکنیکییەکان."],
Piece.atom (Atom.lit "\n      "),
Piece.flagged OptFlag.appendixStructuring [Atom.lit "- ڕێکخستنی پاشکۆکان (Appendix Structuring) بۆ داتای زیادە."],
Piece.atom (Atom.lit "\n      \n      تایبەتمەندییە نوێیەکان (Super Mega Expansion):\n      "),
Piece.flagged OptFlag.etymology [Atom.lit "- بەکارهێنانی ڕەچەڵەکناسی (Etymology) بۆ شیکردنەوەی وشەکان."],
Piece.atom (Atom.lit "\n      "),
Piece.flagged OptFlag.philology [Atom.lit "- بەکارهێنانی فیلۆلۆجی (Philology) بۆ خوێندنەوەی دەقە کۆنەکان."],
Piece.atom (Atom.lit "\n      "),
Piece.flagged OptFlag.sociolinguistics [Atom.lit "- شیکردنەوەی زمانەوانی کۆمەڵایەتی (Sociolinguistics)."],
Piece.atom (Atom.lit "\n      "),
Piece.flagged OptFlag.psycholinguistics [Atom.lit "- شیکردنەوەی زمانەوانی دەروونی (Psycholinguistics)."],
Piece.atom (Atom.lit "\n      "),
Piece.flagged OptFlag.discourseAnalysis [Atom.lit "- شیکاری گوتار (Discourse Analysis) بۆ تێگەیشتن لە دەق."],
Piece.atom (Atom.lit "\n      "),
Piece.flagged OptFlag.utilitarianism [Atom.lit "- بەکارهێنانی فەلسەفەی سوودگەرایی (Utilitarianism)."],
Piece.atom (Atom.lit "\n      "),
Piece.flagged OptFlag.deontology [Atom.lit "- بەکارهێنانی فەلسەفەی ئەرکگەرایی (Deontology)."],
Piece.atom (Atom.lit "\n      "),
Piece.flagged OptFlag.existentialism [Atom.lit "- بەکارهێنانی فەلسەفەی بوونیەتگەرایی (Existentialism)."],
Piece.atom (Atom.lit "\n      "),
Piece.flagged OptFlag.stoicism [Atom.lit "- بەکارهێنانی فەلسەفەی ستۆیسیزم (Stoicism)."],
Piece.atom (Atom.lit "\n      "),
Piece.flagged OptFlag.postModernism [Atom.lit "- بەکارهێنانی فەلسەفەی پۆست-مۆدێرنیزم (Post-Modernism)."],
Piece.atom (Atom.lit "\n      "),
Piece.flagged OptFlag.bigData [Atom.lit "- بەکارهێنانی داتای گەورە (Big Data) لە شیکارییەکاندا."],
Piece.atom (Atom.lit "\n      "),
Piece.flagged OptFlag.predictiveModeling [Atom.lit "- بەکارهێنانی مۆدێلی پێشبینیکەر (Predictive Modeling)."],
Piece.atom (Atom.lit "\n      "),
Piece.flagged OptFlag.networkAnalysis [Atom.lit "- شیکاری تۆڕ (Network Analysis) بۆ پەیوەندییەکان."],
Piece.atom (Atom.lit "\n      "),
Piece.flagged OptFlag.geospatialAnalysis [Atom.lit "- شیکاری شوێن-كات (Geospatial Analysis)."],
Piece.atom (Atom.lit "\n      "),
Piece.flagged OptFlag.sentimentAnalysis [Atom.lit "- شیکاری هەست (Sentiment Analysis) بۆ دەقەکان."],
Piece.atom (Atom.lit "\n      "),
Piece.flagged OptFlag.marxism [Atom.lit "- بەکارهێنانی تیۆری مارکسیزم (Marxism) بۆ شیکردنەوە."],
Piece.atom (Atom.lit "\n      "),
Piece.flagged OptFlag.feminism [Atom.lit "- بەکارهێنانی تیۆری فێمینیزم (Feminism) بۆ شیکردنەوە."],
Piece.atom (Atom.lit "\n      "),
Piece.flagged OptFlag.postColonialism [Atom.lit "- بەکارهێنانی تیۆری پۆست-کۆلۆنیالیزم (Post-Colonialism)."],
Piece.atom (Atom.lit "\n      "),
Piece.flagged OptFlag.structuralism [Atom.lit "- بەکارهێنانی تیۆری بونیادگەری (Structuralism)."],
Piece.atom (Atom.lit "\n      "),
Piece.flagged OptFlag.deconstruction [Atom.lit "- بەکارهێنانی تیۆری هەڵوەشاندنەوە (Deconstruction)."],
Piece.atom (Atom.lit "\n      "),
Piece.flagged OptFlag.reproducibilityCheck [Atom.lit "- دڵنیابوونەوە لە دووبارەکرانەوەی ئەنجامەکان (Reproducibility Check)."],
Piece.atom (Atom.lit "\n      "),
Piece.flagged OptFlag.falsifiability [Atom.lit "- دڵنیابوونەوە لە هەڵوەشێنەرەوەی گریمانەکان (Falsifiability)."],
Piece.atom (Atom.lit "\n      "),
Piece.flagged OptFlag.controlVariables [Atom.lit "- دیاریکردنی گۆڕاوە کۆنترۆڵکراوەکان (Control Variables)."],
Piece.atom (Atom.lit "\n      "),
Piece.flagged OptFlag.doubleBlindProtocol [Atom.lit "- بەکارهێنانی پڕۆتۆکۆلی کوێرانە (Double-Blind Protocol)."],
Piece.atom (Atom.lit "\n      "),
Piece.flagged OptFlag.peerDebriefing [Atom.lit "- بەکارهێنانی گفتوگۆی هاوەڵان (Peer Debriefing)."],
Piece.atom (Atom.lit "\n      "),
Piece.flagged OptFlag.gameTheory [Atom.lit "- بەکارهێنانی تیۆری یاری (Game Theory)."],
Piece.atom (Atom.lit "\n      "),
Piece.flagged OptFlag.behavioralEconomics [Atom.lit "- بەکارهێنانی ئابووری ڕەفتاری (Behavioral Economics)."],
Piece.atom (Atom.lit "\n      "),
Piece.flagged OptFlag.mcrEconomicTrends [Atom.lit "- شیکردنەوەی ترێندە ماکرۆکان (Macro-Economic Trends)."],
Piece.atom (Atom.lit "\n      "),
Piece.flagged OptFlag.costBenefitAnalysis [Atom.lit "- شیکاری تێچوو-سوود (Cost-Benefit Analysis)."],
Piece.atom (Atom.lit "\n      "),
Piece.flagged OptFlag.supplyChainAnalysis [Atom.lit "- شیکاری زنجیرەی دابینکردن (Supply Chain Analysis)."],
Piece.atom (Atom.lit "\n      "),
Piece.flagged OptFlag.cognitiveBehavioral [Atom.lit "- بەکارهێنانی چوارچێوەی مەعریفی ڕەفتاری (CBT)."],
Piece.atom (Atom.lit "\n      "),
Piece.flagged OptFlag.psychoanalysis [Atom.lit "- بەکارهێنانی شیکاری دەروونی (Psychoanalysis)."],
Piece.atom (Atom.lit "\n      "),
Piece.flagged OptFlag.humanisticPsychology [Atom.lit "- بەکارهێنانی دەروونناسی مرۆیی (Humanistic Psychology)."],
Piece.atom (Atom.lit "\n      "),
Piece.flagged OptFlag.socialPsychology [Atom.lit "- بەکارهێنانی دەروونناسی کۆمەڵایەتی (Social Psychology)."],
Piece.atom (Atom.lit "\n      "),
Piece.flagged OptFlag.neuropsychology [Atom.lit "- بەکارهێنانی دەروونناسی دەمار (Neuropsychology)."],
Piece.atom (Atom.lit "\n      "),
Piece.flagged OptFlag.internationalLaw [Atom.lit "- بەکارهێنانی یاسای نێودەوڵەتی (International Law)."],
Piece.atom (Atom.lit "\n      "),
Piece.flagged OptFlag.humanRights [Atom.lit "- جەختکردنەوە لەسەر مافی مرۆڤ (Human Rights)."],
Piece.atom (Atom.lit "\n      "),
Piece.flagged OptFlag.intellectualProperty [Atom.lit "- پاراستنی موڵکیەتی هزری (Intellectual Property)."],
Piece.atom (Atom.lit "\n      "),
Piece.flagged OptFlag.bioethics [Atom.lit "- ڕەچاوکردنی ئاکاری ژیانی (Bioethics)."],
Piece.atom (Atom.lit "\n      "),
Piece.flagged OptFlag.corporateGovernance [Atom.lit "- شیکردنەوەی حوکمڕانی کۆمپانیا (Corporate Governance)."],
Piece.atom (Atom.lit "\n      "),
Piece.sources,
Piece.atom (Atom.lit "\n      \n      ئێستا تکایە تەنها ئەم بەشە بنووسە بە تێروتەسەلی و ئاستێکی باڵای ئەکادیمی هارڤارد:\n      ناونیشانی بەش: "),
Piece.atom Atom.sectionTitle,
Piece.atom (Atom.lit "\n      \n      "),
Piece.prevCtxBlock [Atom.lit "پوختەی بەشی پێشوو بۆ بەستنەوەی زنجیرەیی: ", Atom.prevCtx],
Piece.atom (Atom.lit "\n      ")
]

def sendToWindow2Template : List Piece := [
Piece.atom (Atom.lit "\n      تۆ سەرنووسەرێکی باڵای چاپخانەی زانکۆی هارڤارد (Harvard University Press)یت.\n      تکایە پێکهاتە و ناونیشانی بەشەکانی ئەم بەرهەمە دابڕێژە بە ستانداردی توندی ئەکادیمی هارڤارد:\n      ناونیشان: "),
Piece.atom Atom.title,
Piece.atom (Atom.lit "\n      بابەت: "),
Piece.atom Atom.topic,
Piece.atom (Atom.lit "\n      جۆر: "),
Piece.atom Atom.typ,
Piece.atom (Atom.lit "\n      ئاست: "),
Piece.atom Atom.level,
Piece.atom (Atom.lit "\n      قەبارە: "),
Piece.atom Atom.pages,
Piece.atom (Atom.lit " لاپەڕە\n      \n      تەنها ناونیشانی بەشەکانم بدەرێ بە شێوەی لیستێکی ژمارەیی، بێ هیچ قسەیەکی زیادە. با ژمارەی بەشەکان گونجاو بێت بۆ ئەم قەبارەیە.\n      ")
]


/-- The per-section prompt assembled by `autoWrite`: the rendering of the
template literal. -/
def autoWritePrompt (f : Form) (sectionTitle prevCtx : String) : String :=
  String.join (autoWriteTemplate.map (renderPiece f sectionTitle prevCtx))

/-- The outline prompt assembled by `sendToWindow2` (source lines 417-427). -/
def sendToWindow2Prompt (f : Form) : String :=
  String.join (sendToWindow2Template.map (renderPiece f "" ""))

/-- The component's state, as read by the operations the claims concern:
the section list and active-section signals, the two busy flags, the error
message, the form (`formInvalid` models Angular's `advancedForm.invalid`
validator state), and the local cache.  The cache holds the parsed value of
`localStorage['mamlibrary_autosave']` — a (sections, form) snapshot; its JSON
text layer is the codec verified in the serialization section. -/
structure AppState where
  sections : List BookSection
  activeSectionId : Option Nat
  isGeneratingGlobal : Bool
  isLoadingDocs : Bool
  globalError : String
  form : Form
  formInvalid : Bool
  cache : Option (List BookSection × Form)

/-- The per-section prompt `autoWrite` assembles in a given state: it reads
only `this.advancedForm.value` (plus the section title and the
previous-context accumulator). -/
def autoWritePromptOfState (st : AppState) (sectionTitle prevCtx : String) : String :=
  autoWritePrompt st.form sectionTitle prevCtx

/-- The outline prompt `sendToWindow2` assembles in a given state. -/
def sendToWindow2PromptOfState (st : AppState) : String :=
  sendToWindow2Prompt st.form

/-! ## Export functions (claim C4)

`exportLatex` and `saveAll` build their output by appending one wrapper per
section (`latex += ...` / `content += ...`) around the section's title and
content, between a fixed header and trailer.  The claim "every section's
title and content occur exactly once, in list order" is formalised as a
template instantiation: the output equals `interleave seps datas` where
`datas` is exactly the list of titles and contents in list order (each
contributed once, by `sectionPieces`) and `seps` is a separator list that
depends only on the form and the section count.  Braces and apostrophes in
the fixed text are written with `\x7b`, `\x7d`, `\x27`. -/

/-- The fixed preamble of `exportLatex` (up to the first section). -/
def latexHeader (f : Form) : String :=
  "\\documentclass\x7barticle\x7d\n\\usepackage[utf8]\x7binputenc\x7d\n\\title\x7b" ++ f.title ++
    "\x7d\n\\author\x7bکتێبخانەی مام\x7d\n\\begin\x7bdocument\x7d\n\\maketitle\n\n"

/-- The LaTeX source produced by `exportLatex()` (the string handed to the
`Blob`). -/
def exportLatexText (f : Form) (secs : List BookSection) : String :=
  (secs.foldl
    (fun latex s => latex ++ ("\\section\x7b" ++ s.title ++ "\x7d\n" ++ s.content ++ "\n\n"))
    (latexHeader f)) ++ "\\end\x7bdocument\x7d"

/-- The `content` accumulator of `saveAll()`: an `<h1>` with the form title,
then one `<h2>`+content block per section. -/
def saveAllContent (f : Form) (secs : List BookSection) : String :=
  secs.foldl
    (fun content s => content ++ ("<h2>" ++ s.title ++ "</h2>\n" ++ s.content ++ "\n\n"))
    ("<h1>" ++ f.title ++ "</h1>\n\n")

/-- The fixed Word-HTML preamble of `saveAll()` (up to `<body>`). -/
def saveAllHtmlPre (f : Form) : String :=
  "\n      <html xmlns:o=\x27urn:schemas-microsoft-com:office:office\x27 xmlns:w=\x27urn:schemas-microsoft-com:office:word\x27 xmlns=\x27http://www.w3.org/TR/REC-html40\x27>\n      <head><meta charset=\x27utf-8\x27><title>" ++
    f.title ++ "</title></head><body>"

/-- The Word-compatible HTML document produced by `saveAll()`. -/
def saveAllHtml (f : Form) (secs : List BookSection) : String :=
  saveAllHtmlPre f ++ saveAllContent f secs ++ "</body></html>\n    "

/-- The titles and contents of the sections, in list order, each once. -/
def sectionPieces : List BookSection → List String
| [] => []
| s :: rest => s.title :: s.content :: sectionPieces rest

/-- Instantiate a template: alternate the separators with the data pieces,
ending with the final separator. -/
def interleave : List String → List String → String
| [s], [] => s
| s :: ss, d :: ds => s ++ d ++ interleave ss ds
| _, _ => ""

/-- Separator list of a per-section wrapper template: `A` before each title,
`B` between title and content, `C` after each content, `E` trailing, all
following the accumulated prefix `acc`; `2n + 1` separators for `n`
sections. -/
def wrapSeps (A B C E : String) : String → Nat → List String
| acc, 0 => [acc ++ E]
| acc, n + 1 => (acc ++ A) :: B :: wrapSeps A B C E C n

/-! ## Supabase serialization round trip (claim C2)

`saveToSupabase` stores `JSON.stringify(this.sections())` in the document's
`content` column; `readDocument` runs `JSON.parse(doc.content)` and installs
the result as the section list.  The serializer below produces exactly the
text `JSON.stringify` emits for a `BookSection[]` value: no whitespace, the
object keys in creation order (`id`, `title`, `content`, `status`), numbers in
decimal, and strings quoted with the standard escapes (`\"`, `\\`, `\b`,
`\f`, `\n`, `\r`, `\t`, and `\u00XX` with lowercase hex for the remaining
control characters; all other characters verbatim).  The parser implements
`JSON.parse` on this grammar (typed back into `BookSection`, which is what
the component's cast assumes), so the round-trip theorem is stated on the
concrete strings that flow through the database.  Braces in the fixed text
are written `\x7b`/`\x7d`. -/

/-- The `status` union value as the string `JSON.stringify` emits. -/
def statusStr : SectionStatus → String
| .pending => "pending"
| .generating => "generating"
| .done => "done"
| .humanizing => "humanizing"

/-- Reading a `status` string back into the union type. -/
def statusOfStr (s : String) : Option SectionStatus :=
  if s = "pending" then some .pending
  else if s = "generating" then some .generating
  else if s = "done" then some .done
  else if s = "humanizing" then some .humanizing
  else none

/-- The lowercase hexadecimal digit for `n < 16`. -/
def hexDigitChar : Nat → Char
| 0 => '0' | 1 => '1' | 2 => '2' | 3 => '3' | 4 => '4'
| 5 => '5' | 6 => '6' | 7 => '7' | 8 => '8' | 9 => '9'
| 10 => 'a' | 11 => 'b' | 12 => 'c' | 13 => 'd' | 14 => 'e'
| _ => 'f'

/-- The value of a hexadecimal digit character (`JSON.parse` accepts both
cases). -/
def hexCharVal (c : Char) : Option Nat :=
  if '0' ≤ c ∧ c ≤ '9' then some (c.toNat - '0'.toNat)
  else if 'a' ≤ c ∧ c ≤ 'f' then some (c.toNat - 'a'.toNat + 10)
  else if 'A' ≤ c ∧ c ≤ 'F' then some (c.toNat - 'A'.toNat + 10)
  else none

/-- How `JSON.stringify` escapes one character inside a string. -/
def jsonEscapeChar (c : Char) : List Char :=
  if c = '"' then ['\\', '"']
  else if c = '\\' then ['\\', '\\']
  else if c = '\x08' then ['\\', 'b']
  else if c = '\x0c' then ['\\', 'f']
  else if c = '\n' then ['\\', 'n']
  else if c = '\r' then ['\\', 'r']
  else if c = '\t' then ['\\', 't']
  else if c.toNat < 0x20 then
    ['\\', 'u', '0', '0', hexDigitChar (c.toNat / 16), hexDigitChar (c.toNat % 16)]
  else [c]

def jsonEscapeList : List Char → List Char
| [] => []
| c :: cs => jsonEscapeChar c ++ jsonEscapeList cs

/-- A JSON string literal: quote, escaped content, quote. -/
def jsonQuote (s : String) : List Char :=
  '"' :: (jsonEscapeList s.data ++ ['"'])

/-- Decimal digits of `n`, least significant first. -/
def natDecRev (n : Nat) : List Char :=
  if n < 10 then [hexDigitChar n]
  else hexDigitChar (n % 10) :: natDecRev (n / 10)
decreasing_by exact Nat.div_lt_self (by omega) (by omega)

/-- Decimal digits of `n`, as `JSON.stringify` prints a non-negative
integer. -/
def natDec (n : Nat) : List Char := (natDecRev n).reverse

/-- The fixed chunks of a serialized section object, chunked at the escaped
string contents (each string's closing quote is carried by the following
chunk): `{"id":` … `,"title":"` … `","content":"` … `","status":"` … `"}`. -/
def litIdKey : List Char := "\x7b\"id\":".data

def litTitleKey : List Char := ",\"title\":\"".data

def litContentKeyQ : List Char := "\",\"content\":\"".data

def litContentKey : List Char := ",\"content\":\"".data

def litStatusKeyQ : List Char := "\",\"status\":\"".data

def litStatusKey : List Char := ",\"status\":\"".data

def litEndQ : List Char := "\"\x7d".data

def litEnd : List Char := ['\x7d']

/-- One section as `JSON.stringify` emits it (the same characters as
`'\x7b' :: "\"id\":" ++ id ++ ",\"title\":" ++ jsonQuote title ++ … ++ "\x7d"`,
grouped by the chunks above). -/
def renderSection (s : BookSection) : List Char :=
  litIdKey ++ (natDec s.id ++
    (litTitleKey ++ (jsonEscapeList s.title.data ++
      (litContentKeyQ ++ (jsonEscapeList s.content.data ++
        (litStatusKeyQ ++ (jsonEscapeList (statusStr s.status).data ++ litEndQ)))))))

/-- The comma-separated section objects. -/
def renderSectionsBody : List BookSection → List Char
| [] => []
| [s] => renderSection s
| s :: rest => renderSection s ++ ',' :: renderSectionsBody rest

/-- The `content` column written by `saveToSupabase`:
`JSON.stringify(this.sections())`. -/
def saveToSupabaseContent (secs : List BookSection) : String :=
  String.mk ('[' :: (renderSectionsBody secs ++ [']']))

/-- Consume an expected fixed prefix. -/
def parseLiteral : List Char → List Char → Option (List Char)
| [], rest => some rest
| c :: cs, d :: rest => if d = c then parseLiteral cs rest else none
| _ :: _, [] => none

/-- The value of a decimal digit character. -/
def digitVal (c : Char) : Option Nat :=
  if '0' ≤ c ∧ c ≤ '9' then some (c.toNat - '0'.toNat) else none

/-- Whether the input does not begin with a decimal digit (where a number
parse must stop). -/
def noDigitHead : List Char → Bool
| [] => true
| c :: _ => (digitVal c).isNone

/-- Consume further digits, accumulating the value. -/
def parseNatLoop (acc : Nat) : List Char → Nat × List Char
| [] => (acc, [])
| c :: rest =>
  match digitVal c with
  | some d => parseNatLoop (acc * 10 + d) rest
  | none => (acc, c :: rest)

/-- Parse a non-negative decimal integer (at least one digit). -/
def parseNat : List Char → Option (Nat × List Char)
| [] => none
| c :: rest =>
  match digitVal c with
  | some d => some (parseNatLoop d rest)
  | none => none

/-- Decode one simple escape (after a backslash). -/
def unescapeChar (e : Char) : Option Char :=
  if e = '"' then some '"'
  else if e = '\\' then some '\\'
  else if e = '/' then some '/'
  else if e = 'b' then some '\x08'
  else if e = 'f' then some '\x0c'
  else if e = 'n' then some '\n'
  else if e = 'r' then some '\r'
  else if e = 't' then some '\t'
  else none

/-- Parse the body of a JSON string literal (after the opening quote),
returning its characters and the input after the closing quote. -/
def parseJsonStr : List Char → Option (List Char × List Char)
| [] => none
| c :: rest =>
  if c = '"' then some ([], rest)
  else if c = '\\' then
    match rest with
    | [] => none
    | e :: rest2 =>
      if e = 'u' then
        match rest2 with
        | h1 :: h2 :: h3 :: h4 :: rest3 =>
          match hexCharVal h1, hexCharVal h2, hexCharVal h3, hexCharVal h4 with
          | some a, some b, some c4, some d =>
            (parseJsonStr rest3).map
              (fun r => (Char.ofNat (((a * 16 + b) * 16 + c4) * 16 + d) :: r.1, r.2))
          | _, _, _, _ => none
        | _ => none
      else
        match unescapeChar e with
        | some ch => (parseJsonStr rest2).map (fun r => (ch :: r.1, r.2))
        | none => none
  else (parseJsonStr rest).map (fun r => (c :: r.1, r.2))

/-- Parse one section object. -/
def parseSection (cs : List Char) : Option (BookSection × List Char) :=
  Option.bind (parseLiteral litIdKey cs) fun r1 =>
  Option.bind (parseNat r1) fun p1 =>
  Option.bind (parseLiteral litTitleKey p1.2) fun r3 =>
  Option.bind (parseJsonStr r3) fun p2 =>
  Option.bind (parseLiteral litContentKey p2.2) fun r5 =>
  Option.bind (parseJsonStr r5) fun p3 =>
  Option.bind (parseLiteral litStatusKey p3.2) fun r7 =>
  Option.bind (parseJsonStr r7) fun p4 =>
  Option.bind (statusOfStr (String.mk p4.1)) fun st =>
  Option.bind (parseLiteral litEnd p4.2) fun r9 =>
  some ({ id := p1.1, title := String.mk p2.1, content := String.mk p3.1, status := st }, r9)

/-- Parse the remaining `, section`* entries up to the closing bracket
(`fuel` bounds the iteration; one comma is consumed per step). -/
def parseMoreSections : Nat → List Char → Option (List BookSection × List Char)
| _, ']' :: rest => some ([], rest)
| fuel + 1, ',' :: rest =>
  Option.bind (parseSection rest) fun p =>
  Option.bind (parseMoreSections fuel p.2) fun q =>
  some (p.1 :: q.1, q.2)
| _, _ => none

/-- Parse a serialized section array (the whole input must be consumed). -/
def parseSectionsTop : List Char → Option (List BookSection)
| '[' :: rest =>
  if rest = [']'] then some []
  else
    Option.bind (parseSection rest) fun p =>
    Option.bind (parseMoreSections p.2.length p.2) fun q =>
    if q.2 = [] then some (p.1 :: q.1) else none
| _ => none

/-- The section list `readDocument` obtains from a stored `content` string:
`JSON.parse` on the serializer's grammar, typed as `BookSection[]`. -/
def readDocumentSections (content : String) : Option (List BookSection) :=
  parseSectionsTop content.data

/-- The serialized text after the first section object: `, section`* then the
closing bracket. -/
def renderTail : List BookSection → List Char
| [] => [']']
| s :: rest => ',' :: (renderSection s ++ renderTail rest)

/-- A concrete form value used by the witnesses. -/
def sampleForm : Form :=
  { title := "t", topic := "s", typ := "k", level := "p", pages := 10,
    temperature := "0.7", citationStyle := "Harvard",
    referenceType := "Primary", customOutline := "", customSources := "",
    useCustomOutline := false, useCustomSources := false,
    flags := fun _ => false }

/-! ## Local-cache autosave and startup restore (claim C7)

The constructor registers an Angular `effect` that tracks the `sections`
signal: after every change of the section list it serializes
`{ sections, form }` to `localStorage['mamlibrary_autosave']` — but only when
the new list is non-empty (`if (currentSections.length > 0)`).
`clearSections` removes the key.  `ngOnInit` reads the key back once and, if
it holds a non-empty section list, restores the sections, patches the form,
and makes the first section active. -/

/-- The auto-save effect (constructor, lines 221-232): write the snapshot only
when the section list is non-empty. -/
def autosaveEffect (st : AppState) : AppState :=
  if 0 < st.sections.length then { st with cache := some (st.sections, st.form) } else st

/-- JavaScript `this.sections()[0]?.id || null`: the first section's id, with
both a missing first section and an id of `0` collapsing to `null`. -/
def jsFirstIdOrNull (l : List BookSection) : Option Nat :=
  match l.head? with
  | some s => if s.id = 0 then none else some s.id
  | none => none

/-- `addNewSection()` at the state level (the effect runs after the signal
update). -/
def addNewSectionOp (st : AppState) : AppState :=
  autosaveEffect { st with sections := addNewSection st.sections }

/-- `removeSection(id)` at the state level (confirmed case), including the
active-section adjustment. -/
def removeSectionOp (targetId : Nat) (st : AppState) : AppState :=
  autosaveEffect
    { st with
      sections := removeSection targetId st.sections,
      activeSectionId :=
        if st.activeSectionId = some targetId then
          jsFirstIdOrNull (removeSection targetId st.sections)
        else st.activeSectionId }

/-- `updateSectionTitle(id, event)` at the state level. -/
def updateSectionTitleOp (targetId : Nat) (newTitle : String) (st : AppState) : AppState :=
  autosaveEffect
    { st with sections := updateSectionTitle targetId newTitle st.sections }

/-- `clearSections()`: empty the list, clear the active id, remove the cache
key; the effect then runs on the empty list (and writes nothing). -/
def clearSectionsOp (st : AppState) : AppState :=
  autosaveEffect { st with sections := [], activeSectionId := none, cache := none }

/-- The operations that change the section list in an editing session. -/
inductive SectionOp where
| add
| remove (targetId : Nat)
| retitle (targetId : Nat) (newTitle : String)
| clear

def applySectionOp : SectionOp → AppState → AppState
| .add => addNewSectionOp
| .remove t => removeSectionOp t
| .retitle t s => updateSectionTitleOp t s
| .clear => clearSectionsOp

/-- The auto-save restore in `ngOnInit` (lines 299-321): if the cache holds a
snapshot with a non-empty section list, restore the sections, patch the form,
and make the first section active. -/
def ngOnInitLoad (st : AppState) : AppState :=
  match st.cache with
  | none => st
  | some (savedSections, savedForm) =>
    if 0 < savedSections.length then
      { st with
        sections := savedSections,
        form := savedForm,
        activeSectionId := savedSections.head?.map (·.id) }
    else st

/-- A concrete one-section state whose cache holds the matching snapshot. -/
def c7State : AppState :=
  { sections := [⟨1, "t", "c", .pending⟩], activeSectionId := some 1,
    isGeneratingGlobal := false, isLoadingDocs := false, globalError := "",
    form := sampleForm, formInvalid := false,
    cache := some ([⟨1, "t", "c", .pending⟩], sampleForm) }

/-! ## In-flight call guards (claim C8)

Each operation that can start an external call is modelled at the state
level, returning the new state together with the calls it started.
`autoWrite`, `autoHumanize`, `academicReview` and `saveToSupabase` begin with
`if (this.isGeneratingGlobal()) return;`; `sendToWindow2` checks only
`this.advancedForm.invalid`, `autoSelectFeatures` checks only that the title
is non-empty, and `loadDocuments` has no guard at all. -/

/-- `autoWrite()` at the state level: guard on `isGeneratingGlobal`, then run
the sequential loop; afterwards the active section is the last one a call was
started for.  (The `globalError` message signal is not tracked.) -/
def autoWriteOp (oracle : Nat → String → GenOutcome) (st : AppState) :
    AppState × List Nat :=
  if st.isGeneratingGlobal then (st, [])
  else
    let r := autoWriteRun oracle (autoWritePrompt st.form) st.sections
    ({ st with
        sections := r.1,
        isGeneratingGlobal := false,
        activeSectionId :=
          match r.2.getLast? with
          | some i =>
            match st.sections[i]? with
            | some s => some s.id
            | none => st.activeSectionId
          | none => st.activeSectionId },
      r.2)

/-- `autoHumanize()` at the state level: guard on `isGeneratingGlobal`, then
run the humanize loop. -/
def autoHumanizeOp (oracle : Nat → String → GenOutcome) (mkPrompt : String → String)
    (st : AppState) : AppState × List Nat :=
  if st.isGeneratingGlobal then (st, [])
  else
    let r := autoHumanizeRun oracle mkPrompt st.sections
    ({ st with
        sections := r.1,
        isGeneratingGlobal := false,
        activeSectionId :=
          match r.2.getLast? with
          | some i =>
            match st.sections[i]? with
            | some s => some s.id
            | none => st.activeSectionId
          | none => st.activeSectionId },
      r.2)

/-- `academicReview()` at the state level: guard on `isGeneratingGlobal`, then
require an active section with non-empty content; one generation call rewrites
that section.  The `Bool` records whether the call was started. -/
def academicReviewOp (out : GenOutcome) (st : AppState) : AppState × Bool :=
  if st.isGeneratingGlobal then (st, false)
  else
    match st.activeSectionId with
    | none => (st, false)
    | some id =>
      let idx := st.sections.findIdx (fun s => s.id = id)
      if h : idx < st.sections.length then
        if (st.sections.get ⟨idx, h⟩).content = "" then (st, false)
        else
          let secs1 := modifyIdx (fun s => { s with status := .humanizing }) idx st.sections
          let secs2 := applyChunks idx out.chunks secs1
          let secs3 :=
            if out.ok then modifyIdx (fun s => { s with status := .done }) idx secs2
            else secs2
          ({ st with sections := secs3, isGeneratingGlobal := false }, true)
      else (st, false)

/-- `saveToSupabase()` at the state level: guard on `isGeneratingGlobal`, then
one insert call carrying the serialized sections (`ok` is the call's
outcome). -/
def saveToSupabaseOp (_ok : Bool) (st : AppState) : AppState × Bool :=
  if st.isGeneratingGlobal then (st, false)
  else ({ st with isGeneratingGlobal := false }, true)

/-- `sendToWindow2()` at the state level: guard only on form validity; the
custom-outline path builds sections locally without a call; otherwise the
outline generation call is started and its response processed by
`outlineSections`.  The `Bool` records whether the call was started. -/
def sendToWindow2Op (outlineText : String) (st : AppState) : AppState × Bool :=
  if st.formInvalid then (st, false)
  else
    let f := st.form
    if f.useCustomOutline = true ∧ jsTrim f.customOutline ≠ "" ∧
        0 < (customOutlineSections f.customOutline).length then
      ({ st with
          sections := customOutlineSections f.customOutline,
          activeSectionId := (customOutlineSections f.customOutline).head?.map (·.id) },
        false)
    else
      let newSections := outlineSections outlineText f.pages
      ({ st with
          sections := newSections,
          activeSectionId := newSections.head?.map (·.id) },
        true)

/-- Whether `autoSelectFeatures` reaches its external call: it checks only
that the title is non-empty (lines 234-246) — not `isGeneratingGlobal`. -/
def autoSelectFeaturesStartsCall (st : AppState) : Bool :=
  st.form.title ≠ ""

/-- Whether `loadDocuments` reaches its external call: it has no guard
(lines 333-346). -/
def loadDocumentsStartsCall (_ : AppState) : Bool :=
  true

/-- A state with a call in flight and a valid form. -/
def busyState : AppState :=
  { sections := [], activeSectionId := none, isGeneratingGlobal := true,
    isLoadingDocs := false, globalError := "", form := sampleForm,
    formInvalid := false, cache := none }


@[simp] theorem modifyIdx_nil (f : BookSection → BookSection) (n : Nat) :
    modifyIdx f n [] = [] := by cases n <;> rfl

@[simp] theorem modifyIdx_length (f : BookSection → BookSection) :
    ∀ (n : Nat) (l : List BookSection), (modifyIdx f n l).length = l.length := by
  intro n l
  induction l generalizing n with
  | nil => simp
  | cons a t ih => cases n <;> simp [modifyIdx, ih]

theorem secAt_modifyIdx_self (f : BookSection → BookSection) :
    ∀ (n : Nat) (l : List BookSection), n < l.length →
      secAt (modifyIdx f n l) n = f (secAt l n) := by
  intro n l
  induction l generalizing n with
  | nil => intro h; simp at h
  | cons a t ih =>
    intro h
    cases n with
    | zero => rfl
    | succ m =>
      simp only [modifyIdx, secAt, List.getD_cons_succ]
      exact ih m (by simpa using h)

theorem secAt_modifyIdx_other (f : BookSection → BookSection) :
    ∀ (n j : Nat) (l : List BookSection), j ≠ n →
      secAt (modifyIdx f n l) j = secAt l j := by
  intro n j l
  induction l generalizing n j with
  | nil => intro _; simp
  | cons a t ih =>
    intro hne
    cases n with
    | zero =>
      cases j with
      | zero => exact absurd rfl hne
      | succ m => simp [modifyIdx, secAt]
    | succ m =>
      cases j with
      | zero => simp [modifyIdx, secAt]
      | succ p =>
        simp only [modifyIdx, secAt, List.getD_cons_succ]
        exact ih m p (by omega)

theorem secAt_eq_get (l : List BookSection) (i : Nat) (h : i < l.length) :
    secAt l i = l.get ⟨i, h⟩ := by
  rw [secAt, List.getD_eq_getElem l dummySection h]
  rfl

theorem secAt_default (l : List BookSection) (j : Nat) (h : l.length ≤ j) :
    secAt l j = dummySection := by
  rw [secAt, List.getD_eq_default l dummySection h]

theorem le_foldl_max (l : List BookSection) : ∀ b : Nat,
    b ≤ l.foldl (fun m s => max m s.id) b := by
  induction l with
  | nil => intro b; exact le_refl b
  | cons a t ih =>
    intro b
    calc b ≤ max b a.id := le_max_left _ _
    _ ≤ _ := ih (max b a.id)

theorem le_maxSectionId_aux (l : List BookSection) :
    ∀ b s, s ∈ l → s.id ≤ l.foldl (fun m s => max m s.id) b := by
  induction l with
  | nil => intro _ _ h; cases h
  | cons a t ih =>
    intro b s hs
    rcases List.mem_cons.mp hs with h | h
    · subst h
      calc s.id ≤ max b s.id := le_max_right _ _
      _ ≤ _ := le_foldl_max t (max b s.id)
    · exact ih _ s h

/-- Every id in a section list is bounded by `maxSectionId`. -/
theorem le_maxSectionId {l : List BookSection} {s : BookSection} (h : s ∈ l) :
    s.id ≤ maxSectionId l :=
  le_maxSectionId_aux l 0 s h

/-- The id assigned by `addNewSection` is fresh. -/
theorem newSectionId_not_mem (l : List BookSection) :
    newSectionId l ∉ sectionIds l := by
  intro hmem
  rcases List.mem_map.mp hmem with ⟨s, hs, hid⟩
  have hlen : 0 < l.length := List.length_pos.mpr (List.ne_nil_of_mem hs)
  have : newSectionId l = maxSectionId l + 1 := by
    simp [newSectionId, hlen]
  have hle := le_maxSectionId hs
  omega

theorem sectionIds_addNewSection (l : List BookSection) :
    sectionIds (addNewSection l) = sectionIds l ++ [newSectionId l] := by
  simp [sectionIds, addNewSection]

/-- Ids of an enumerated creation (`lines.map((t, idx) => ({ id: idx + 1, ... }))`)
are `1, 2, …, n`, hence pairwise distinct. -/
theorem nodup_ids_of_enum_map {α : Type} (lines : List α)
    (g : Nat × α → BookSection) (hg : ∀ p, (g p).id = p.1 + 1) :
    (sectionIds (lines.enum.map g)).Nodup := by
  have h : sectionIds (lines.enum.map g) =
      (lines.enum.map Prod.fst).map (fun i => i + 1) := by
    simp only [sectionIds, List.map_map]
    exact List.map_congr_left (fun p _ => hg p)
  rw [h]
  exact (List.nodup_enum_map_fst lines).map (fun a b h => by omega)

theorem nodup_ids_customOutlineSections (customOutline : String) :
    (sectionIds (customOutlineSections customOutline)).Nodup := by
  unfold customOutlineSections
  exact nodup_ids_of_enum_map _ _ (fun p => rfl)

theorem nodup_ids_outlineSections (outlineText : String) (pages : Nat) :
    (sectionIds (outlineSections outlineText pages)).Nodup := by
  unfold outlineSections
  dsimp only
  split
  · have h : sectionIds ((List.range (max 3 ((pages + 4) / 5))).map
        (fun i => ({ id := i + 1, title := "بەشی " ++ toString (i + 1), content := "",
                     status := SectionStatus.pending } : BookSection))) =
        (List.range (max 3 ((pages + 4) / 5))).map (fun i => i + 1) := by
      simp [sectionIds, List.map_map]
    rw [h]
    exact (List.nodup_range _).map (fun a b h => by omega)
  · exact nodup_ids_of_enum_map _ _ (fun p => rfl)

theorem sectionIds_removeSection (targetId : Nat) (l : List BookSection) :
    (sectionIds (removeSection targetId l)).Sublist (sectionIds l) :=
  List.Sublist.map (fun s : BookSection => s.id) (List.filter_sublist l)

theorem sectionIds_updateSectionTitle (targetId : Nat) (newTitle : String)
    (l : List BookSection) :
    sectionIds (updateSectionTitle targetId newTitle l) = sectionIds l := by
  simp only [sectionIds, updateSectionTitle, List.map_map]
  refine List.map_congr_left (fun s _ => ?_)
  by_cases h : s.id = targetId <;> simp [h]

theorem sectionIds_modifyIdx (f : BookSection → BookSection) (hf : ∀ s, (f s).id = s.id) :
    ∀ (i : Nat) (l : List BookSection), sectionIds (modifyIdx f i l) = sectionIds l := by
  intro i l
  induction l generalizing i with
  | nil => simp
  | cons a t ih =>
    cases i with
    | zero => simp [modifyIdx, sectionIds, hf]
    | succ n => simpa [modifyIdx, sectionIds] using ih n

/-- Ids of any reachable section list are pairwise distinct. -/
theorem nodup_sectionIds_of_reachable {l : List BookSection}
    (h : ReachableSections l) : (sectionIds l).Nodup := by
  induction h with
  | empty => simp [sectionIds]
  | customOutline c => exact nodup_ids_customOutlineSections c
  | outline t p => exact nodup_ids_outlineSections t p
  | add _ ih =>
    rw [sectionIds_addNewSection]
    simpa [List.nodup_append] using ⟨ih, fun hmem => newSectionId_not_mem _ hmem⟩
  | remove targetId _ ih => exact (sectionIds_removeSection targetId _).nodup ih
  | retitle targetId newTitle _ ih =>
    rw [sectionIds_updateSectionTitle]; exact ih
  | modify f i hf _ ih =>
    rw [sectionIds_modifyIdx f hf]; exact ih

/-- C3: section identifiers are unique and stable within a session.  For every
reachable section list the ids are pairwise distinct; `addNewSection` appends a
section whose id is `max existing id + 1` (or `1` on an empty list) and is
distinct from every existing id; `removeSection` keeps every remaining section
unchanged (in particular its id), and `updateSectionTitle` changes no id. -/
theorem claim_C3 :
    (∀ l, ReachableSections l → (sectionIds l).Nodup) ∧
    (∀ l, sectionIds (addNewSection l) = sectionIds l ++ [newSectionId l] ∧
          newSectionId l = (if 0 < l.length then maxSectionId l + 1 else 1) ∧
          newSectionId l ∉ sectionIds l) ∧
    (∀ (targetId : Nat) (l : List BookSection),
        ∀ s ∈ removeSection targetId l, s ∈ l) ∧
    (∀ (targetId : Nat) (newTitle : String) (l : List BookSection),
        sectionIds (updateSectionTitle targetId newTitle l) = sectionIds l) := by
  refine ⟨fun l h => nodup_sectionIds_of_reachable h,
          fun l => ⟨sectionIds_addNewSection l, rfl, newSectionId_not_mem l⟩,
          fun targetId l s hs => List.mem_of_mem_filter hs,
          fun targetId newTitle l => sectionIds_updateSectionTitle targetId newTitle l⟩

/-- Witness for C3 at a concrete reachable list (a two-line custom outline with
a section added and one removed). -/
theorem claim_C3_witness :
    (sectionIds (removeSection 1 (addNewSection (customOutlineSections "a\nb")))).Nodup ∧
    newSectionId (customOutlineSections "a\nb") ∉
      sectionIds (customOutlineSections "a\nb") :=
  ⟨claim_C3.1 _ (ReachableSections.remove 1
      (ReachableSections.add (ReachableSections.customOutline "a\nb"))),
   (claim_C3.2.1 (customOutlineSections "a\nb")).2.2⟩

/-- C9: with a blank model outline, `sendToWindow2` builds exactly
`max 3 ⌈pages/5⌉` fallback sections (`⌈pages/5⌉ = (pages+4)/5` on naturals),
with ids `1..count` in order, placeholder titles `بەشی i`, empty content and
status `pending`, and the first section (id 1) becomes the active one. -/
theorem claim_C9 (outlineText : String) (pages : Nat)
    (hblank : ∀ line ∈ jsSplitNewline outlineText, jsTrim line = "") :
    (outlineSections outlineText pages).length = max 3 ((pages + 4) / 5) ∧
    (∀ i : Nat, i < (outlineSections outlineText pages).length →
       secAt (outlineSections outlineText pages) i =
         { id := i + 1, title := "بەشی " ++ toString (i + 1), content := "",
           status := SectionStatus.pending }) ∧
    firstActiveId (outlineSections outlineText pages) = some 1 := by
  have hfilter : (jsSplitNewline outlineText).filter (fun l => 0 < (jsTrim l).length) = [] := by
    refine List.filter_eq_nil_iff.mpr (fun line hline => ?_)
    have := hblank line hline
    simp [this]
  have hfall : outlineSections outlineText pages =
      (List.range (max 3 ((pages + 4) / 5))).map
        (fun i => { id := i + 1, title := "بەشی " ++ toString (i + 1), content := "",
                    status := SectionStatus.pending }) := by
    unfold outlineSections
    rw [hfilter]
    simp
  refine ⟨by rw [hfall]; simp, fun i hi => ?_, ?_⟩
  · have hi' : i < max 3 ((pages + 4) / 5) := by
      have := hi; rw [hfall] at this; simpa using this
    rw [hfall, secAt, List.getD_eq_getElem?_getD]
    simp [List.getElem?_map, List.getElem?_range, hi']
  · rw [hfall, firstActiveId]
    have h3 : 0 < max 3 ((pages + 4) / 5) := lt_of_lt_of_le (by norm_num) (le_max_left _ _)
    rw [List.head?_eq_getElem?]
    simp [List.getElem?_map, List.getElem?_range, h3]

/-- Witness for C9: the empty outline text with 12 requested pages. -/
theorem claim_C9_witness :
    (outlineSections "" 12).length = 3 ∧
    firstActiveId (outlineSections "" 12) = some 1 := by
  have h := claim_C9 "" 12 (by decide)
  exact ⟨h.1, h.2.2⟩

@[simp] theorem applyChunks_length (i : Nat) (chunks : List String) (l : List BookSection) :
    (applyChunks i chunks l).length = l.length := by
  unfold applyChunks; split <;> simp

theorem secAt_applyChunks_other (i j : Nat) (chunks : List String) (l : List BookSection)
    (hne : j ≠ i) :
    secAt (applyChunks i chunks l) j = secAt l j := by
  unfold applyChunks
  split
  · rfl
  · exact secAt_modifyIdx_other _ i j l hne

theorem status_secAt_modifyIdx (st : SectionStatus) (i : Nat) (l : List BookSection)
    (hi : i < l.length) :
    (secAt (modifyIdx (fun s => { s with status := st }) i l) i).status = st := by
  rw [secAt_modifyIdx_self _ i l hi]

/-- Behaviour of the `autoWrite` loop when every call before index `k` succeeds
and the call at `k` fails: lengths are preserved, sections outside the window
`[i, k]` are untouched, the sections in `[i, k)` end `done`, section `k` ends
`pending`, and exactly the calls `i, …, k` were started. -/
theorem autoWriteGo_spec (oracle : Nat → String → GenOutcome)
    (mkPrompt : String → String → String) (k : Nat)
    (hfail : ∀ p, (oracle k p).ok = false)
    (hsucc : ∀ j p, j < k → (oracle j p).ok = true) :
    ∀ (fuel i : Nat) (prevCtx : String) (secs : List BookSection),
      secs.length ≤ fuel + i → i ≤ k → k < secs.length →
      (autoWriteGo oracle mkPrompt fuel i prevCtx secs).1.length = secs.length ∧
      (∀ j : Nat, j < i ∨ k < j →
         secAt (autoWriteGo oracle mkPrompt fuel i prevCtx secs).1 j = secAt secs j) ∧
      (∀ j : Nat, i ≤ j → j < k →
         (secAt (autoWriteGo oracle mkPrompt fuel i prevCtx secs).1 j).status = .done) ∧
      (secAt (autoWriteGo oracle mkPrompt fuel i prevCtx secs).1 k).status = .pending ∧
      (autoWriteGo oracle mkPrompt fuel i prevCtx secs).2 = List.range' i (k + 1 - i) := by
  intro fuel
  induction fuel with
  | zero => intro i prevCtx secs hfi hik hk; omega
  | succ fuel ih =>
    intro i prevCtx secs hfi hik hk
    have hi : i < secs.length := lt_of_le_of_lt hik hk
    by_cases hcase : i < k
    · -- the call at `i` succeeds and the loop recurses
      have hok : (oracle i (mkPrompt (secs.get ⟨i, hi⟩).title prevCtx)).ok = true :=
        hsucc i _ hcase
      simp only [autoWriteGo, dif_pos hi, hok, if_pos]
      set secs2 := applyChunks i (oracle i (mkPrompt (secs.get ⟨i, hi⟩).title prevCtx)).chunks
        (modifyIdx (fun s => { s with status := .generating }) i secs) with hsecs2
      set secs3 := modifyIdx (fun s => { s with status := .done }) i secs2 with hsecs3
      have hlen2 : secs2.length = secs.length := by simp [hsecs2]
      have hlen3 : secs3.length = secs.length := by simp [hsecs3, hsecs2]
      have hrec := ih (i + 1)
        ((String.join (oracle i (mkPrompt (secs.get ⟨i, hi⟩).title prevCtx)).chunks).takeRight 500)
        secs3 (by omega) (by omega) (by omega)
      obtain ⟨hrlen, hframe, hdone, hpend, hcalls⟩ := hrec
      have hother : ∀ j : Nat, j ≠ i → secAt secs3 j = secAt secs j := by
        intro j hji
        calc secAt secs3 j = secAt secs2 j := secAt_modifyIdx_other _ i j secs2 hji
        _ = secAt (modifyIdx (fun s => { s with status := .generating }) i secs) j :=
              secAt_applyChunks_other i j _ _ hji
        _ = secAt secs j := secAt_modifyIdx_other _ i j secs hji
      refine ⟨by rw [hrlen, hlen3], ?_, ?_, ?_, ?_⟩
      · intro j hcond
        have h1 := hframe j (by omega)
        rw [h1]
        exact hother j (by omega)
      · intro j hij hjk
        by_cases hji : j = i
        · have h1 := hframe j (Or.inl (by omega))
          rw [h1, hji, hsecs3]
          exact status_secAt_modifyIdx .done i secs2 (by omega)
        · exact hdone j (by omega) hjk
      · exact hpend
      · rw [hcalls]
        have h2 : k + 1 - i = (k + 1 - (i + 1)) + 1 := by omega
        rw [h2, List.range'_succ]
    · -- `i = k`: the call fails, the loop reverts the status and breaks
      have hieq : i = k := by omega
      subst hieq
      have hok : (oracle i (mkPrompt (secs.get ⟨i, hi⟩).title prevCtx)).ok = false := hfail _
      simp only [autoWriteGo, dif_pos hi, hok, Bool.false_eq_true, if_false]
      set secs2 := applyChunks i (oracle i (mkPrompt (secs.get ⟨i, hi⟩).title prevCtx)).chunks
        (modifyIdx (fun s => { s with status := .generating }) i secs) with hsecs2
      have hlen2 : secs2.length = secs.length := by simp [hsecs2]
      refine ⟨by simp [hlen2], ?_, ?_, ?_, by simp⟩
      · intro j hcond
        have hji : j ≠ i := by omega
        calc secAt (modifyIdx (fun s => { s with status := .pending }) i secs2) j
            = secAt secs2 j := secAt_modifyIdx_other _ i j secs2 hji
        _ = secAt (modifyIdx (fun s => { s with status := .generating }) i secs) j :=
              secAt_applyChunks_other i j _ _ hji
        _ = secAt secs j := secAt_modifyIdx_other _ i j secs hji
      · intro j hij hjk; omega
      · exact status_secAt_modifyIdx .pending i secs2 (by omega)

/-- C1: in the sequential `autoWrite` loop, if the calls for the sections
before index `k` succeed and the call for section `k` fails, then section `k`'s
status is reverted to `pending`, every earlier section ends `done`, every
section after `k` is left completely untouched, and generation calls were
started exactly for sections `0, …, k` — the sequence halts at the failure. -/
theorem claim_C1 (oracle : Nat → String → GenOutcome)
    (mkPrompt : String → String → String) (secs : List BookSection) (k : Nat)
    (hk : k < secs.length)
    (hsucc : ∀ j p, j < k → (oracle j p).ok = true)
    (hfail : ∀ p, (oracle k p).ok = false) :
    (autoWriteRun oracle mkPrompt secs).1.length = secs.length ∧
    (secAt (autoWriteRun oracle mkPrompt secs).1 k).status = .pending ∧
    (∀ j : Nat, j < k →
       (secAt (autoWriteRun oracle mkPrompt secs).1 j).status = .done) ∧
    (∀ j : Nat, k < j →
       secAt (autoWriteRun oracle mkPrompt secs).1 j = secAt secs j) ∧
    (autoWriteRun oracle mkPrompt secs).2 = List.range (k + 1) := by
  have h := autoWriteGo_spec oracle mkPrompt k hfail hsucc secs.length 0 "" secs
    (by omega) (by omega) hk
  obtain ⟨hlen, hframe, hdone, hpend, hcalls⟩ := h
  simp only [autoWriteRun]
  exact ⟨hlen, hpend, fun j hjk => hdone j (Nat.zero_le j) hjk,
         fun j hkj => hframe j (Or.inr hkj),
         by rw [hcalls, List.range_eq_range']; norm_num⟩

/-- Witness for C1: three pending sections; the first two calls succeed with a
one-chunk stream, the third fails before its first chunk. -/
theorem claim_C1_witness :
    ((autoWriteRun
        (fun i _ => if i < 2 then { chunks := ["x"], ok := true } else { chunks := [], ok := false })
        (fun _ _ => "")
        [⟨1, "a", "", .pending⟩, ⟨2, "b", "", .pending⟩, ⟨3, "c", "", .pending⟩]).2 =
      [0, 1, 2]) ∧
    ((autoWriteRun
        (fun i _ => if i < 2 then { chunks := ["x"], ok := true } else { chunks := [], ok := false })
        (fun _ _ => "")
        [⟨1, "a", "", .pending⟩, ⟨2, "b", "", .pending⟩, ⟨3, "c", "", .pending⟩]).1.length = 3) := by
  have h := claim_C1
    (fun i _ => if i < 2 then { chunks := ["x"], ok := true } else { chunks := [], ok := false })
    (fun _ _ => "")
    [⟨1, "a", "", .pending⟩, ⟨2, "b", "", .pending⟩, ⟨3, "c", "", .pending⟩] 2
    (by decide)
    (fun j p hj => by simp [hj])
    (fun p => by simp)
  refine ⟨by rw [h.2.2.2.2]; decide, h.1⟩

/-- Behaviour of the `autoHumanize` loop: lengths are preserved, every section
whose content is empty is left completely untouched, and a generation call is
started only for indices at or after the start index whose section has
non-empty content. -/
theorem autoHumanizeGo_spec (oracle : Nat → String → GenOutcome) (mkPrompt : String → String) :
    ∀ (fuel i : Nat) (secs : List BookSection),
      (autoHumanizeGo oracle mkPrompt fuel i secs).1.length = secs.length ∧
      (∀ j : Nat, (secAt secs j).content = "" →
         secAt (autoHumanizeGo oracle mkPrompt fuel i secs).1 j = secAt secs j) ∧
      (∀ j ∈ (autoHumanizeGo oracle mkPrompt fuel i secs).2,
         i ≤ j ∧ j < secs.length ∧ (secAt secs j).content ≠ "") := by
  intro fuel
  induction fuel with
  | zero =>
    intro i secs
    refine ⟨rfl, fun j _ => rfl, fun j hj => ?_⟩
    simp [autoHumanizeGo] at hj
  | succ fuel ih =>
    intro i secs
    by_cases hi : i < secs.length
    · by_cases hskip : (secs.get ⟨i, hi⟩).content = ""
      · -- `if (!section.content) continue;`
        have hunf : autoHumanizeGo oracle mkPrompt (fuel + 1) i secs =
            autoHumanizeGo oracle mkPrompt fuel (i + 1) secs := by
          simp only [autoHumanizeGo, dif_pos hi, if_pos hskip]
        rw [hunf]
        obtain ⟨hlen, hun, hcalls⟩ := ih (i + 1) secs
        exact ⟨hlen, hun, fun j hj => ⟨Nat.le_of_succ_le (hcalls j hj).1, (hcalls j hj).2⟩⟩
      · by_cases hok : (oracle i (mkPrompt (secs.get ⟨i, hi⟩).content)).ok
        · -- humanize succeeds, loop continues
          have hunf : autoHumanizeGo oracle mkPrompt (fuel + 1) i secs =
              ((autoHumanizeGo oracle mkPrompt fuel (i + 1)
                 (modifyIdx (fun s => { s with status := .done }) i
                   (applyChunks i (oracle i (mkPrompt (secs.get ⟨i, hi⟩).content)).chunks
                     (modifyIdx (fun s => { s with status := .humanizing }) i secs)))).1,
               i :: (autoHumanizeGo oracle mkPrompt fuel (i + 1)
                 (modifyIdx (fun s => { s with status := .done }) i
                   (applyChunks i (oracle i (mkPrompt (secs.get ⟨i, hi⟩).content)).chunks
                     (modifyIdx (fun s => { s with status := .humanizing }) i secs)))).2) := by
            simp only [autoHumanizeGo, dif_pos hi, if_neg hskip, hok, if_true]
          set secs3 := modifyIdx (fun s => { s with status := .done }) i
            (applyChunks i (oracle i (mkPrompt (secs.get ⟨i, hi⟩).content)).chunks
              (modifyIdx (fun s => { s with status := .humanizing }) i secs)) with hsecs3
          have hlen3 : secs3.length = secs.length := by simp [hsecs3]
          obtain ⟨hlen, hun, hcalls⟩ := ih (i + 1) secs3
          have hget3 : ∀ j : Nat, j ≠ i → secAt secs3 j = secAt secs j := by
            intro j hji
            calc secAt secs3 j
                = secAt (applyChunks i (oracle i (mkPrompt (secs.get ⟨i, hi⟩).content)).chunks
                    (modifyIdx (fun s => { s with status := .humanizing }) i secs)) j :=
                  secAt_modifyIdx_other _ i j _ hji
            _ = secAt (modifyIdx (fun s => { s with status := .humanizing }) i secs) j :=
                  secAt_applyChunks_other i j _ _ hji
            _ = secAt secs j := secAt_modifyIdx_other _ i j secs hji
          rw [hunf]
          refine ⟨by rw [hlen, hlen3], ?_, ?_⟩
          · intro j hempty
            have hji : j ≠ i := by
              intro h
              rw [h, secAt_eq_get secs i hi] at hempty
              exact hskip hempty
            have h3 := hget3 j hji
            have hempty3 : (secAt secs3 j).content = "" := by
              rw [h3]; exact hempty
            have := hun j hempty3
            exact this.trans h3
          · intro j hj
            rcases List.mem_cons.mp hj with h | h
            · subst h
              refine ⟨le_refl _, hi, ?_⟩
              rw [secAt_eq_get secs j hi]
              exact hskip
            · obtain ⟨hij, hjlen3, hne3⟩ := hcalls j h
              have hji : j ≠ i := by omega
              refine ⟨by omega, by omega, ?_⟩
              rw [← hget3 j hji]
              exact hne3
        · -- humanize fails: the loop breaks
          have hunf : autoHumanizeGo oracle mkPrompt (fuel + 1) i secs =
              (applyChunks i (oracle i (mkPrompt (secs.get ⟨i, hi⟩).content)).chunks
                 (modifyIdx (fun s => { s with status := .humanizing }) i secs), [i]) := by
            simp only [autoHumanizeGo, dif_pos hi, if_neg hskip, if_neg hok]
          rw [hunf]
          refine ⟨by simp, ?_, ?_⟩
          · intro j hempty
            have hji : j ≠ i := by
              intro h
              rw [h, secAt_eq_get secs i hi] at hempty
              exact hskip hempty
            calc secAt (applyChunks i (oracle i (mkPrompt (secs.get ⟨i, hi⟩).content)).chunks
                  (modifyIdx (fun s => { s with status := .humanizing }) i secs)) j
                = secAt (modifyIdx (fun s => { s with status := .humanizing }) i secs) j :=
                  secAt_applyChunks_other i j _ _ hji
            _ = secAt secs j := secAt_modifyIdx_other _ i j secs hji
          · intro j hj
            have hji : j = i := by simpa using hj
            subst hji
            refine ⟨le_refl _, hi, ?_⟩
            rw [secAt_eq_get secs j hi]
            exact hskip
    · have hunf : autoHumanizeGo oracle mkPrompt (fuel + 1) i secs = (secs, []) := by
        simp only [autoHumanizeGo, dif_neg hi]
      rw [hunf]
      exact ⟨rfl, fun j _ => rfl, fun j hj => by simp at hj⟩

/-- C10: `autoHumanize` skips every section whose content is empty — such a
section is left completely unchanged (same id, title, content, status) and no
generation call is made for it; generation calls are made only for sections
with non-empty content. -/
theorem claim_C10 (oracle : Nat → String → GenOutcome) (mkPrompt : String → String)
    (secs : List BookSection) :
    (autoHumanizeRun oracle mkPrompt secs).1.length = secs.length ∧
    (∀ j : Nat, (secAt secs j).content = "" →
       secAt (autoHumanizeRun oracle mkPrompt secs).1 j = secAt secs j) ∧
    (∀ j ∈ (autoHumanizeRun oracle mkPrompt secs).2,
       j < secs.length ∧ (secAt secs j).content ≠ "") := by
  obtain ⟨hlen, hun, hcalls⟩ := autoHumanizeGo_spec oracle mkPrompt secs.length 0 secs
  exact ⟨hlen, hun, fun j hj => ⟨(hcalls j hj).2.1, (hcalls j hj).2.2⟩⟩

/-- Witness for C10: two sections, the first with empty content; only the
second is humanized and the first is untouched. -/
theorem claim_C10_witness :
    ((autoHumanizeRun (fun _ _ => { chunks := ["y"], ok := true }) (fun _ => "")
        [⟨1, "a", "", .pending⟩, ⟨2, "b", "x", .done⟩]).2 = [1]) ∧
    (secAt (autoHumanizeRun (fun _ _ => { chunks := ["y"], ok := true }) (fun _ => "")
        [⟨1, "a", "", .pending⟩, ⟨2, "b", "x", .done⟩]).1 0 = ⟨1, "a", "", .pending⟩) := by
  have h := claim_C10 (fun _ _ => { chunks := ["y"], ok := true }) (fun _ => "")
    [⟨1, "a", "", .pending⟩, ⟨2, "b", "x", .done⟩]
  refine ⟨by decide, ?_⟩
  have h0 := h.2.1 0 (by decide)
  rw [h0]
  rfl

theorem renderAtom_setFlag (f : Form) (o : OptFlag) (b : Bool) (t c : String) :
    ∀ a : Atom, renderAtom (setFlag f o b) t c a = renderAtom f t c a := by
  intro a; cases a <;> rfl

theorem renderAtoms_setFlag (f : Form) (o : OptFlag) (b : Bool) (t c : String)
    (atoms : List Atom) :
    renderAtoms (setFlag f o b) t c atoms = renderAtoms f t c atoms := by
  unfold renderAtoms
  exact congrArg String.join (List.map_congr_left (fun a _ => renderAtom_setFlag f o b t c a))

/-- Updating one boolean fragment control changes no piece other than the
pieces gated on that control. -/
theorem renderPiece_setFlag (f : Form) (o : OptFlag) (b : Bool) (t c : String)
    (p : Piece) (hp : pieceFlag p ≠ some o) :
    renderPiece (setFlag f o b) t c p = renderPiece f t c p := by
  cases p with
  | atom a => exact renderAtom_setFlag f o b t c a
  | flagged o2 frags =>
    have hne : o2 ≠ o := fun h => hp (by rw [pieceFlag, h])
    have hflag : (setFlag f o b).flags o2 = f.flags o2 := by
      simp [setFlag, hne]
    rw [renderPiece, renderPiece, hflag, renderAtoms_setFlag]
  | prevCtxBlock frags =>
    rw [renderPiece, renderPiece, renderAtoms_setFlag]
  | sources => rfl

/-- C5: prompt assembly is deterministic and depends only on the form values
(and, for the per-section prompt, the section title and previous-section
context): two states agreeing on the form — whatever their section lists,
flags, errors or caches — yield the identical `autoWrite` section prompt and
the identical `sendToWindow2` outline prompt. -/
theorem claim_C5 (st1 st2 : AppState) (t1 t2 c1 c2 : String)
    (hf : st1.form = st2.form) (ht : t1 = t2) (hc : c1 = c2) :
    autoWritePromptOfState st1 t1 c1 = autoWritePromptOfState st2 t2 c2 ∧
    sendToWindow2PromptOfState st1 = sendToWindow2PromptOfState st2 := by
  unfold autoWritePromptOfState sendToWindow2PromptOfState
  rw [hf, ht, hc]
  exact ⟨rfl, rfl⟩

/-- Witness for C5: two states with the same form but different section lists,
busy flags and caches produce identical prompts. -/
theorem claim_C5_witness :
    autoWritePromptOfState
        { sections := [], activeSectionId := none, isGeneratingGlobal := false,
          isLoadingDocs := false, globalError := "", form := sampleForm,
          formInvalid := false, cache := none } "sec" "" =
      autoWritePromptOfState
        { sections := [⟨1, "a", "b", .done⟩], activeSectionId := some 1,
          isGeneratingGlobal := true, isLoadingDocs := true, globalError := "e",
          form := sampleForm, formInvalid := true,
          cache := some ([], sampleForm) } "sec" "" :=
  (claim_C5 _ _ "sec" "sec" "" "" rfl rfl rfl).1

/-- C6: the `autoWrite` prompt is the rendering of one fixed template list
(fixed concatenation order, independent of which flags are set).  Each
boolean option's pieces render to the option's fragment exactly when its flag
is set and to the empty string when it is unset; toggling one flag changes no
other piece of the prompt; and every option of `OptFlag` gates at least one
piece of the template. -/
theorem claim_C6 (f : Form) (sectionTitle prevCtx : String) (o : OptFlag) (b : Bool) :
    autoWritePrompt f sectionTitle prevCtx =
      String.join (autoWriteTemplate.map (renderPiece f sectionTitle prevCtx)) ∧
    (∀ (k : Nat) (frags : List Atom),
        autoWriteTemplate.getD k Piece.sources = Piece.flagged o frags →
        (autoWriteTemplate.map (renderPiece f sectionTitle prevCtx)).getD k "" =
          (if f.flags o = true then renderAtoms f sectionTitle prevCtx frags else "")) ∧
    (∀ k : Nat,
        pieceFlag (autoWriteTemplate.getD k Piece.sources) ≠ some o →
        (autoWriteTemplate.map (renderPiece (setFlag f o b) sectionTitle prevCtx)).getD k "" =
          (autoWriteTemplate.map (renderPiece f sectionTitle prevCtx)).getD k "") ∧
    (∀ o2 : OptFlag, (autoWriteTemplate.any (fun p => pieceFlag p = some o2)) = true) := by
  refine ⟨rfl, ?_, ?_, by set_option maxRecDepth 4000 in decide⟩
  · intro k frags heq
    by_cases hk : k < autoWriteTemplate.length
    · rw [List.getD_eq_getElem _ _ (by simpa using hk), List.getElem_map]
      rw [List.getD_eq_getElem _ _ hk] at heq
      rw [heq]
      rfl
    · rw [List.getD_eq_default _ _ (by simpa using (not_lt.mp hk))] at heq
      exact Piece.noConfusion heq
  · intro k hne
    by_cases hk : k < autoWriteTemplate.length
    · rw [List.getD_eq_getElem _ _ (by simpa using hk),
          List.getD_eq_getElem _ _ (by simpa using hk), List.getElem_map, List.getElem_map]
      refine renderPiece_setFlag f o b sectionTitle prevCtx _ ?_
      rw [List.getD_eq_getElem _ _ hk] at hne
      exact hne
    · rw [List.getD_eq_default _ _ (by simpa using (not_lt.mp hk)),
          List.getD_eq_default _ _ (by simpa using (not_lt.mp hk))]

set_option maxRecDepth 8000 in
/-- Witness for C6 at the dialectic flag: with the flag unset its piece
(slot 13 of the template) renders empty; toggling it on leaves the
neighbouring fixed piece (slot 14) unchanged. -/
theorem claim_C6_witness :
    (autoWriteTemplate.map (renderPiece sampleForm "sec" "")).getD 13 "" = "" ∧
    (autoWriteTemplate.map
        (renderPiece (setFlag sampleForm OptFlag.dialectic true) "sec" "")).getD 14 "" =
      (autoWriteTemplate.map (renderPiece sampleForm "sec" "")).getD 14 "" := by
  have h := claim_C6 sampleForm "sec" "" OptFlag.dialectic true
  constructor
  · have h2 := h.2.1 13
      [Atom.lit "٤. تکایە شێوازی (تێز، دژەتێز، سێنتێز) بەکاربهێنە لە شیکارییەکانتدا."]
      (by decide)
    rw [h2]
    rfl
  · exact h.2.2.1 14 (by decide)

@[simp] theorem sectionPieces_length (secs : List BookSection) :
    (sectionPieces secs).length = 2 * secs.length := by
  induction secs with
  | nil => rfl
  | cons s rest ih => simp [sectionPieces, ih]; omega

theorem wrapSeps_prefix (A B C E X Y : String) (n : Nat) (ds : List String)
    (hds : ds.length = 2 * n) :
    interleave (wrapSeps A B C E (X ++ Y) n) ds =
      X ++ interleave (wrapSeps A B C E Y n) ds := by
  cases n with
  | zero =>
    cases ds with
    | nil => simp [wrapSeps, interleave, String.append_assoc]
    | cons d ds2 => simp at hds
  | succ m =>
    cases ds with
    | nil => simp at hds
    | cons d ds2 => simp [wrapSeps, interleave, String.append_assoc]

/-- Appending one wrapper per section around a fixed accumulator instantiates
the wrapper template at the titles and contents, in order. -/
theorem wrapFold_interleave (A B C E : String) :
    ∀ (secs : List BookSection) (acc : String),
      (secs.foldl (fun a s => a ++ (A ++ s.title ++ B ++ s.content ++ C)) acc) ++ E =
        interleave (wrapSeps A B C E acc secs.length) (sectionPieces secs) := by
  intro secs
  induction secs with
  | nil => intro acc; simp [wrapSeps, interleave, sectionPieces]
  | cons s rest ih =>
    intro acc
    simp only [List.foldl_cons, List.length_cons]
    rw [ih]
    have hacc : acc ++ (A ++ s.title ++ B ++ s.content ++ C) =
        (acc ++ A ++ s.title ++ B ++ s.content) ++ C := by
      simp [String.append_assoc]
    rw [hacc, wrapSeps_prefix _ _ _ _ _ _ _ _ (by simp)]
    simp only [sectionPieces]
    simp [wrapSeps, interleave, String.append_assoc]

/-- C4: each export output is the instantiation of a fixed template — a
separator list depending only on the form value and the section count —
at the list of section titles and contents in list order, so every section's
title and content occur exactly once, in list order, in the output. -/
theorem claim_C4 (f : Form) (secs : List BookSection) :
    exportLatexText f secs =
      interleave
        (wrapSeps "\\section\x7b" "\x7d\n" "\n\n" "\\end\x7bdocument\x7d"
          (latexHeader f) secs.length)
        (sectionPieces secs) ∧
    saveAllHtml f secs =
      saveAllHtmlPre f ++
        interleave
          (wrapSeps "<h2>" "</h2>\n" "\n\n" "</body></html>\n    "
            ("<h1>" ++ f.title ++ "</h1>\n\n") secs.length)
          (sectionPieces secs) := by
  constructor
  · exact wrapFold_interleave _ _ _ _ secs (latexHeader f)
  · rw [saveAllHtml, saveAllContent, String.append_assoc]
    rw [wrapFold_interleave "<h2>" "</h2>\n" "\n\n" "</body></html>\n    " secs
      ("<h1>" ++ f.title ++ "</h1>\n\n")]

theorem autosaveEffect_spec (st : AppState) :
    (autosaveEffect st).form = st.form ∧
    (autosaveEffect st).sections = st.sections ∧
    (st.sections ≠ [] → (autosaveEffect st).cache = some (st.sections, st.form)) ∧
    (st.sections = [] → (autosaveEffect st).cache = st.cache) := by
  unfold autosaveEffect
  split_ifs with h
  · exact ⟨rfl, rfl, fun _ => rfl,
      fun he => absurd he (List.ne_nil_of_length_pos h)⟩
  · refine ⟨rfl, rfl, fun hne => ?_, fun _ => rfl⟩
    exact absurd (List.length_pos.mpr hne) h

/-- C7 counterexample: in a one-section state whose cache holds the matching
snapshot, removing that section empties the list, but the auto-save effect's
`length > 0` guard skips the write, so the cache still holds the stale
one-section snapshot — not a snapshot of the (now empty) current sections. -/
theorem claim_C7_counterexample :
    (removeSectionOp 1 c7State).sections = [] ∧
    (removeSectionOp 1 c7State).cache = some ([⟨1, "t", "c", .pending⟩], sampleForm) ∧
    (removeSectionOp 1 c7State).cache ≠
      some ((removeSectionOp 1 c7State).sections, (removeSectionOp 1 c7State).form) := by
  refine ⟨rfl, rfl, ?_⟩
  intro h
  rw [show (removeSectionOp 1 c7State).cache =
        some ([⟨1, "t", "c", .pending⟩], sampleForm) from rfl,
      show (removeSectionOp 1 c7State).sections = ([] : List BookSection) from rfl] at h
  simp at h

/-- C7 (amended): after every section-list operation that leaves the list
non-empty, the cache holds the snapshot of the current sections and form; an
operation that leaves the list empty writes nothing — `clearSections` removes
the snapshot, while a removal that empties the list leaves the previous
(stale) snapshot in place; and at startup the snapshot is read back once,
restoring the sections and form and making the first section active. -/
theorem claim_C7 :
    (∀ (op : SectionOp) (st : AppState),
        (applySectionOp op st).form = st.form ∧
        ((applySectionOp op st).sections ≠ [] →
          (applySectionOp op st).cache =
            some ((applySectionOp op st).sections, (applySectionOp op st).form)) ∧
        ((applySectionOp op st).sections = [] →
          (applySectionOp op st).cache =
            (match op with | SectionOp.clear => none | _ => st.cache))) ∧
    (∀ (st : AppState) (secs : List BookSection) (f : Form),
        st.cache = some (secs, f) → secs ≠ [] →
        (ngOnInitLoad st).sections = secs ∧ (ngOnInitLoad st).form = f ∧
        (ngOnInitLoad st).activeSectionId = secs.head?.map (·.id)) := by
  constructor
  · intro op st
    cases op with
    | add =>
      simp only [applySectionOp, addNewSectionOp]
      obtain ⟨hf, hs, hw, hn⟩ :=
        autosaveEffect_spec { st with sections := addNewSection st.sections }
      refine ⟨hf, fun hne => ?_, fun he => ?_⟩
      · rw [hs] at hne ⊢
        rw [hw hne, hf]
      · rw [hs] at he
        rw [hn he]
    | remove t =>
      simp only [applySectionOp, removeSectionOp]
      obtain ⟨hf, hs, hw, hn⟩ := autosaveEffect_spec
        { st with
          sections := removeSection t st.sections,
          activeSectionId :=
            if st.activeSectionId = some t then
              jsFirstIdOrNull (removeSection t st.sections)
            else st.activeSectionId }
      refine ⟨hf, fun hne => ?_, fun he => ?_⟩
      · rw [hs] at hne ⊢
        rw [hw hne, hf]
      · rw [hs] at he
        rw [hn he]
    | retitle t s =>
      simp only [applySectionOp, updateSectionTitleOp]
      obtain ⟨hf, hs, hw, hn⟩ := autosaveEffect_spec
        { st with sections := updateSectionTitle t s st.sections }
      refine ⟨hf, fun hne => ?_, fun he => ?_⟩
      · rw [hs] at hne ⊢
        rw [hw hne, hf]
      · rw [hs] at he
        rw [hn he]
    | clear =>
      simp only [applySectionOp, clearSectionsOp]
      obtain ⟨hf, hs, hw, hn⟩ := autosaveEffect_spec
        { st with sections := [], activeSectionId := none, cache := none }
      refine ⟨hf, fun hne => ?_, fun he => ?_⟩
      · rw [hs] at hne
        exact absurd rfl hne
      · rw [hn rfl]
  · intro st secs f hc hne
    simp only [ngOnInitLoad, hc]
    rw [if_pos (List.length_pos.mpr hne)]
    exact ⟨rfl, rfl, rfl⟩

/-- Witness for C7: adding a section to the one-section state writes the
matching snapshot, and restoring from the cached snapshot brings the section
list back. -/
theorem claim_C7_witness :
    (applySectionOp SectionOp.add c7State).cache =
      some ((applySectionOp SectionOp.add c7State).sections,
            (applySectionOp SectionOp.add c7State).form) ∧
    (ngOnInitLoad c7State).sections = [⟨1, "t", "c", .pending⟩] := by
  constructor
  · exact (claim_C7.1 SectionOp.add c7State).2.1 (by decide)
  · exact (claim_C7.2 c7State [⟨1, "t", "c", .pending⟩] sampleForm rfl (by decide)).1

/-- C8 counterexample: with a call already in flight
(`isGeneratingGlobal = true`) and a valid form, `sendToWindow2` still starts
its outline generation call (it guards only on form validity), and
`autoSelectFeatures` / `loadDocuments` would likewise proceed — contradicting
the claim that every listed operation returns immediately in that case. -/
theorem claim_C8_counterexample :
    busyState.isGeneratingGlobal = true ∧
    (sendToWindow2Op "" busyState).2 = true ∧
    autoSelectFeaturesStartsCall busyState = true ∧
    loadDocumentsStartsCall busyState = true := by
  exact ⟨rfl, rfl, by decide, rfl⟩

/-- C8 (amended): `autoWrite`, `autoHumanize`, `academicReview` and
`saveToSupabase` return immediately, starting no call, when
`isGeneratingGlobal` is set; but `sendToWindow2` starts its call whenever the
form is valid (and the custom-outline path is off), `autoSelectFeatures`
whenever the title is non-empty, and `loadDocuments` always — none of the
three checks `isGeneratingGlobal`.  Within each operation, calls are issued
sequentially by one loop (see the `autoWriteGo`/`autoHumanizeGo` models). -/
theorem claim_C8 (oracle : Nat → String → GenOutcome) (mkPrompt : String → String)
    (out : GenOutcome) (ok : Bool) (st : AppState)
    (h : st.isGeneratingGlobal = true) :
    autoWriteOp oracle st = (st, []) ∧
    autoHumanizeOp oracle mkPrompt st = (st, []) ∧
    academicReviewOp out st = (st, false) ∧
    saveToSupabaseOp ok st = (st, false) ∧
    (st.formInvalid = false → st.form.useCustomOutline = false →
      ∀ o, (sendToWindow2Op o st).2 = true) ∧
    (st.form.title ≠ "" → autoSelectFeaturesStartsCall st = true) ∧
    loadDocumentsStartsCall st = true := by
  refine ⟨by simp [autoWriteOp, h], by simp [autoHumanizeOp, h],
    by simp [academicReviewOp, h], by simp [saveToSupabaseOp, h], ?_, ?_, rfl⟩
  · intro hinv hout o
    simp [sendToWindow2Op, hinv, hout]
  · intro ht
    simp [autoSelectFeaturesStartsCall, ht]

theorem hexCharVal_hexDigitChar (n : Nat) (h : n < 16) :
    hexCharVal (hexDigitChar n) = some n := by
  interval_cases n <;> rfl

theorem digitVal_hexDigitChar (n : Nat) (h : n < 10) :
    digitVal (hexDigitChar n) = some n := by
  interval_cases n <;> rfl

theorem parseLiteral_append (lit : List Char) : ∀ rest : List Char,
    parseLiteral lit (lit ++ rest) = some rest := by
  induction lit with
  | nil => intro rest; rfl
  | cons c cs ih => intro rest; simp [parseLiteral, ih]

/-- Parsing an escaped character run recovers the characters and stops at the
closing quote. -/
theorem parseJsonStr_escapeList : ∀ (cs rest : List Char),
    parseJsonStr (jsonEscapeList cs ++ '"' :: rest) = some (cs, rest) := by
  intro cs
  induction cs with
  | nil =>
    intro rest
    rw [jsonEscapeList, List.nil_append, parseJsonStr.eq_def]
    simp
  | cons c cs ih =>
    intro rest
    rw [jsonEscapeList, List.append_assoc]
    unfold jsonEscapeChar
    split_ifs with h1 h2 h3 h4 h5 h6 h7 h8
    · subst h1; rw [parseJsonStr.eq_def]; simp [unescapeChar, ih]
    · subst h2; rw [parseJsonStr.eq_def]; simp [unescapeChar, ih]
    · subst h3; rw [parseJsonStr.eq_def]; simp [unescapeChar, ih]
    · subst h4; rw [parseJsonStr.eq_def]; simp [unescapeChar, ih]
    · subst h5; rw [parseJsonStr.eq_def]; simp [unescapeChar, ih]
    · subst h6; rw [parseJsonStr.eq_def]; simp [unescapeChar, ih]
    · subst h7; rw [parseJsonStr.eq_def]; simp [unescapeChar, ih]
    · -- the `\u00XX` escape for the remaining control characters
      have hdiv : c.toNat / 16 < 16 := by omega
      have hmod : c.toNat % 16 < 16 := Nat.mod_lt _ (by omega)
      rw [parseJsonStr.eq_def]
      simp only [List.cons_append, List.nil_append,
        hexCharVal_hexDigitChar _ hdiv, hexCharVal_hexDigitChar _ hmod,
        show hexCharVal '0' = some 0 from rfl, ih]
      have harith : c.toNat / 16 * 16 + c.toNat % 16 = c.toNat := by omega
      simp [harith, Char.ofNat_toNat, ih]
    · -- an unescaped character
      rw [parseJsonStr.eq_def]
      simp [h1, h2, ih]

theorem litContentKeyQ_eq : litContentKeyQ = '"' :: litContentKey := by decide

theorem litStatusKeyQ_eq : litStatusKeyQ = '"' :: litStatusKey := by decide

theorem litEndQ_eq : litEndQ = '"' :: litEnd := by decide

theorem string_mk_data (s : String) : String.mk s.data = s := rfl

theorem natDec_eq (n : Nat) :
    natDec n =
      if n < 10 then [hexDigitChar n]
      else natDec (n / 10) ++ [hexDigitChar (n % 10)] := by
  rw [natDec, natDecRev.eq_def]
  split_ifs with h
  · rfl
  · rw [List.reverse_cons]; rfl

theorem parseNatLoop_stop (acc : Nat) (rest : List Char) (h : noDigitHead rest = true) :
    parseNatLoop acc rest = (acc, rest) := by
  cases rest with
  | nil => rfl
  | cons c t =>
    have hnone : digitVal c = none := by
      simpa [noDigitHead, Option.isNone_iff_eq_none] using h
    simp [parseNatLoop, hnone]

theorem parseNatLoop_natDec : ∀ (n acc : Nat) (rest : List Char),
    parseNatLoop acc (natDec n ++ rest) =
      parseNatLoop (acc * 10 ^ (natDec n).length + n) rest := by
  intro n
  induction n using Nat.strong_induction_on with
  | _ n ih =>
    intro acc rest
    by_cases h : n < 10
    · rw [natDec_eq, if_pos h]
      have hd := digitVal_hexDigitChar n h
      simp [parseNatLoop, hd, pow_one]
    · rw [natDec_eq, if_neg h, List.append_assoc]
      simp only [List.singleton_append]
      rw [ih (n / 10) (Nat.div_lt_self (by omega) (by omega)) acc
          (hexDigitChar (n % 10) :: rest)]
      have hd := digitVal_hexDigitChar (n % 10) (Nat.mod_lt _ (by omega))
      simp only [List.length_append, List.length_singleton]
      simp only [List.cons_append, List.nil_append, parseNatLoop, hd]
      congr 1
      have h2 : n / 10 * 10 + n % 10 = n := by omega
      calc (acc * 10 ^ (natDec (n / 10)).length + n / 10) * 10 + n % 10
          = acc * (10 ^ (natDec (n / 10)).length * 10) + (n / 10 * 10 + n % 10) := by ring
      _ = acc * 10 ^ ((natDec (n / 10)).length + 1) + n := by rw [h2, pow_succ]

theorem natDec_cons : ∀ n : Nat, ∃ (d : Nat) (t : List Char),
    natDec n = hexDigitChar d :: t ∧ d < 10 := by
  intro n
  induction n using Nat.strong_induction_on with
  | _ n ih =>
    by_cases h : n < 10
    · exact ⟨n, [], by rw [natDec_eq, if_pos h], h⟩
    · obtain ⟨d, t, heq, hd⟩ := ih (n / 10) (Nat.div_lt_self (by omega) (by omega))
      exact ⟨d, t ++ [hexDigitChar (n % 10)],
        by rw [natDec_eq, if_neg h, heq]; rfl, hd⟩

theorem parseNat_natDec (n : Nat) (rest : List Char) (h : noDigitHead rest = true) :
    parseNat (natDec n ++ rest) = some (n, rest) := by
  obtain ⟨d, t, heq, hd⟩ := natDec_cons n
  have hloop := parseNatLoop_natDec n 0 rest
  rw [parseNatLoop_stop _ _ h] at hloop
  simp only [Nat.zero_mul, Nat.zero_add] at hloop
  rw [heq, List.cons_append] at hloop ⊢
  have hdv := digitVal_hexDigitChar d hd
  simp only [parseNatLoop, hdv, Nat.zero_mul, Nat.zero_add] at hloop
  simp only [parseNat, hdv, hloop]

theorem statusOfStr_statusStr (st : SectionStatus) :
    statusOfStr (statusStr st) = some st := by
  cases st <;> rfl

theorem parseNat_natDec_title (n : Nat) (X : List Char) :
    parseNat (natDec n ++ (litTitleKey ++ X)) = some (n, litTitleKey ++ X) :=
  parseNat_natDec n (litTitleKey ++ X) rfl

/-- Parsing a rendered section object recovers the section. -/
theorem parseSection_renderSection (s : BookSection) (rest : List Char) :
    parseSection (renderSection s ++ rest) = some (s, rest) := by
  rw [renderSection]
  simp only [List.append_assoc]
  rw [parseSection, parseLiteral_append]
  simp only [Option.some_bind]
  rw [parseNat_natDec_title]
  simp only [Option.some_bind]
  rw [parseLiteral_append]
  simp only [Option.some_bind]
  rw [litContentKeyQ_eq, List.cons_append, parseJsonStr_escapeList]
  simp only [Option.some_bind]
  rw [parseLiteral_append]
  simp only [Option.some_bind]
  rw [litStatusKeyQ_eq, List.cons_append, parseJsonStr_escapeList]
  simp only [Option.some_bind]
  rw [parseLiteral_append]
  simp only [Option.some_bind]
  rw [litEndQ_eq, List.cons_append, parseJsonStr_escapeList]
  simp only [Option.some_bind]
  rw [string_mk_data, statusOfStr_statusStr]
  simp only [Option.some_bind]
  rw [parseLiteral_append]
  simp [string_mk_data]

theorem string_data_mk (l : List Char) : (String.mk l).data = l := rfl

theorem renderSection_ne_nil (s : BookSection) : renderSection s ≠ [] := by
  rw [renderSection]
  intro h
  exact absurd (List.append_eq_nil.mp h).1 (by decide)

theorem renderSectionsBody_ne_nil (s : BookSection) (r : List BookSection) :
    renderSectionsBody (s :: r) ≠ [] := by
  cases r with
  | nil => simpa [renderSectionsBody] using renderSection_ne_nil s
  | cons s2 r2 =>
    simp only [renderSectionsBody]
    intro h
    exact absurd (List.append_eq_nil.mp h).1 (renderSection_ne_nil s)

theorem renderSectionsBody_cons_tail (s : BookSection) : ∀ rest : List BookSection,
    renderSectionsBody (s :: rest) ++ [']'] = renderSection s ++ renderTail rest := by
  intro rest
  induction rest generalizing s with
  | nil => simp [renderSectionsBody, renderTail]
  | cons s2 r2 ih =>
    simp only [renderSectionsBody]
    rw [List.append_assoc, List.cons_append, ih s2]
    rfl

theorem renderTail_length_ge : ∀ rest : List BookSection,
    rest.length ≤ (renderTail rest).length := by
  intro rest
  induction rest with
  | nil => simp [renderTail]
  | cons s r ih => simp [renderTail]; omega

theorem parseMoreSections_renderTail : ∀ (rest : List BookSection) (fuel : Nat),
    rest.length ≤ fuel → parseMoreSections fuel (renderTail rest) = some (rest, []) := by
  intro rest
  induction rest with
  | nil => intro fuel _; cases fuel <;> rfl
  | cons s r ih =>
    intro fuel hf
    cases fuel with
    | zero => simp at hf
    | succ f =>
      rw [renderTail]
      rw [parseMoreSections, parseSection_renderSection]
      simp only [Option.some_bind]
      rw [ih f (by simpa using hf)]
      simp only [Option.some_bind]

/-- C2: serializing a section list as `saveToSupabase` does
(`JSON.stringify` of the sections array) and deserializing the stored
`content` as `readDocument` does (`JSON.parse`) reproduces the same section
list — identical ids, titles, contents, and statuses in the same order. -/
theorem claim_C2 (secs : List BookSection) :
    readDocumentSections (saveToSupabaseContent secs) = some secs := by
  cases secs with
  | nil => rfl
  | cons s rest =>
    rw [readDocumentSections, saveToSupabaseContent, string_data_mk, parseSectionsTop]
    have hne : renderSectionsBody (s :: rest) ++ [']'] ≠ [']'] := by
      intro heq
      have hb : renderSectionsBody (s :: rest) = [] :=
        List.append_cancel_right (heq.trans (List.nil_append [']']).symm)
      exact renderSectionsBody_ne_nil s rest hb
    rw [if_neg hne, renderSectionsBody_cons_tail, parseSection_renderSection]
    simp only [Option.some_bind]
    rw [parseMoreSections_renderTail rest _ (renderTail_length_ge rest)]
    simp only [Option.some_bind]
    simp

/-- Witness for C2: a concrete two-section list (with quotes, newlines, a tab
and a control character in the contents) survives the round trip. -/
theorem claim_C2_witness :
    readDocumentSections
        (saveToSupabaseContent
          [⟨1, "a\"b", "x\n\ty", .pending⟩, ⟨2, "بەش", "c\x01d", .done⟩]) =
      some [⟨1, "a\"b", "x\n\ty", .pending⟩, ⟨2, "بەش", "c\x01d", .done⟩] :=
  claim_C2 [⟨1, "a\"b", "x\n\ty", .pending⟩, ⟨2, "بەش", "c\x01d", .done⟩]

/-- Witness for C8: in the busy state the four guarded operations do
nothing and start no call. -/
theorem claim_C8_witness :
    autoWriteOp (fun _ _ => { chunks := [], ok := true }) busyState = (busyState, []) ∧
    saveToSupabaseOp true busyState = (busyState, false) := by
  have h := claim_C8 (fun _ _ => { chunks := [], ok := true }) (fun _ => "")
    { chunks := [], ok := true } true busyState rfl
  exact ⟨h.1, h.2.2.2.1⟩

/-- Witness for C4 at a concrete two-section document: the exports equal the
template instantiations, which evaluate to the expected literal strings. -/
theorem claim_C4_witness :
    exportLatexText sampleForm [⟨1, "A1", "B1", .done⟩, ⟨2, "A2", "B2", .done⟩] =
      interleave
        (wrapSeps "\\section\x7b" "\x7d\n" "\n\n" "\\end\x7bdocument\x7d"
          (latexHeader sampleForm) 2)
        (sectionPieces [⟨1, "A1", "B1", .done⟩, ⟨2, "A2", "B2", .done⟩]) :=
  (claim_C4 sampleForm [⟨1, "A1", "B1", .done⟩, ⟨2, "A2", "B2", .done⟩]).1

end Mamlibrary
